import Mathlib

/-!
Shallow embedding of the webhook ingestion and reconciliation subsystem of a
subscription billing backend (Convex + Polar).  Pure functions are translated
directly; Convex mutations become explicit state passing over a document-store
state; timestamps are modelled as natural numbers (milliseconds) or opaque
strings where only equality matters; external network calls are oracles passed
as function arguments, with a call log recording which external ids were hit.
-/

namespace Billing

/-! ### JSON-ish metadata values and the JS object-spread merge -/

inductive MVal where
  | num (n : Int)
  | str (s : String)
  | flag (b : Bool)
  deriving DecidableEq, Repr

abbrev Metadata := List (String × MVal)

/-- First-match key lookup in a metadata object. -/
def metaLookup (m : Metadata) (k : String) : Option MVal :=
  match m.find? (fun p => p.1 = k) with
  | some p => some p.2
  | none => none

/-- Model of the JS object spread used by the mutators, as a
finite map: keys of the second object override keys of the first.
Key order is not preserved exactly as in JS (overridden keys move to the
position of the overriding object), which is irrelevant for map semantics. -/
def jsSpread (old upd : Metadata) : Metadata :=
  old.filter (fun p => !(upd.any (fun q => q.1 = p.1))) ++ upd

/-! ### Circuit breaker (sync.ts module-level state and helpers) -/

/-- Cool-down before the breaker half-opens: five minutes, in milliseconds. -/
def cooldownMs : Nat := 5 * 60 * 1000

structure CircuitBreakerState where
  isOpen : Bool
  failures : Nat
  lastFailure : Option Nat
  nextRetry : Option Nat
  deriving DecidableEq, Repr

/-- Module initializer of the breaker singleton. -/
def initialBreaker : CircuitBreakerState :=
  { isOpen := false, failures := 0, lastFailure := none, nextRetry := none }

/-- checkCircuitBreaker(): deny while open and before nextRetry; half-open
(reset failures, close) once the retry time is reached. -/
def checkCircuitBreaker (now : Nat) (cb : CircuitBreakerState) :
    Bool × CircuitBreakerState :=
  match cb.isOpen, cb.nextRetry with
  | true, some nr =>
      if now < nr then (false, cb)
      else (true, { cb with isOpen := false, failures := 0 })
  | _, _ => (true, cb)

/-- recordSuccess(): reset the failure counter and close the breaker. -/
def recordSuccess (cb : CircuitBreakerState) : CircuitBreakerState :=
  { cb with failures := 0, isOpen := false }

/-- recordFailure(): bump the counter; at three or more failures open the
breaker and schedule the next retry one cool-down from now. -/
def recordFailure (now : Nat) (cb : CircuitBreakerState) : CircuitBreakerState :=
  let f := cb.failures + 1
  if 3 ≤ f then
    { isOpen := true, failures := f, lastFailure := some now,
      nextRetry := some (now + cooldownMs) }
  else
    { cb with failures := f, lastFailure := some now }

/-- Breaker state after three consecutive failures from the initial state. -/
def trippedBreaker (t1 t2 t3 : Nat) : CircuitBreakerState :=
  recordFailure t3 (recordFailure t2 (recordFailure t1 initialBreaker))

/-! ### Subscription status mapping (webhooks.ts mapPolarStatus; the same
literal map appears inline in subscriptions.ts and sync.ts) -/

inductive SubStatus where
  | incomplete
  | incomplete_expired
  | trialing
  | active
  | past_due
  | canceled
  | unpaid
  | revoked
  deriving DecidableEq, Repr

def mapPolarStatus (polarStatus : String) : SubStatus :=
  if polarStatus = "incomplete" then .incomplete
  else if polarStatus = "incomplete_expired" then .incomplete_expired
  else if polarStatus = "trialing" then .trialing
  else if polarStatus = "active" then .active
  else if polarStatus = "past_due" then .past_due
  else if polarStatus = "canceled" then .canceled
  else if polarStatus = "unpaid" then .unpaid
  else .revoked

/-- The stored string form of a mapped status (how the document store holds
the enum; used by the reconciliation string comparison). -/
def subStatusStr : SubStatus → String
  | .incomplete => "incomplete"
  | .incomplete_expired => "incomplete_expired"
  | .trialing => "trialing"
  | .active => "active"
  | .past_due => "past_due"
  | .canceled => "canceled"
  | .unpaid => "unpaid"
  | .revoked => "revoked"

def knownPolarStatuses : List String :=
  ["incomplete", "incomplete_expired", "trialing", "active", "past_due",
   "canceled", "unpaid"]

/-! ### Generic list helpers for the document store -/

/-- Patch the first element satisfying a predicate (Convex pattern: query
first and patch the found document; a no-op when nothing matches). -/
def patchFirst (p : α → Bool) (f : α → α) : List α → List α
  | [] => []
  | x :: xs => if p x then f x :: xs else x :: patchFirst p f xs

/-- JS string-truthiness of an optional string field (undefined and the
empty string are both falsy). -/
def strTruthy : Option String → Bool
  | some s => !(s == "")
  | none => false

/-- JS s1 or-else d for an optional string (empty string falls through). -/
def strOr (o : Option String) (d : String) : String :=
  match o with
  | some s => if s == "" then d else s
  | none => d

/-! ### Document store entities (from convex/schema usage in the source) -/

structure User where
  id : Nat
  email : String
  externalId : String
  deriving DecidableEq, Repr

structure Customer where
  id : Nat
  userId : Option Nat
  orgId : Option Nat
  email : String
  polarCustomerId : String
  metadata : Metadata
  createdAt : String
  lastSyncedAt : Option String
  deriving DecidableEq, Repr

structure Subscription where
  id : Nat
  customerId : Nat
  userId : Option Nat
  orgId : Option Nat
  polarSubscriptionId : String
  polarProductId : String
  planId : Option Nat
  status : SubStatus
  currentPeriodStart : Option String
  currentPeriodEnd : Option String
  cancelAtPeriodEnd : Option Bool
  canceledAt : Option String
  endedAt : Option String
  trialStart : Option String
  trialEnd : Option String
  metadata : Metadata
  createdAt : String
  updatedAt : String
  lastSyncedAt : Option String
  deriving DecidableEq, Repr

structure CheckoutSession where
  id : Nat
  userId : Option Nat
  polarCheckoutId : String
  status : String
  completedAt : Option String
  metadata : Metadata
  deriving DecidableEq, Repr

structure Order where
  id : Nat
  userId : Option Nat
  customerId : Nat
  polarOrderId : String
  totalCents : Int
  currency : String
  status : String
  metadata : Option Metadata
  createdAt : String
  updatedAt : String
  deriving DecidableEq, Repr

structure Invoice where
  id : Nat
  userId : Option Nat
  customerId : Nat
  subscriptionId : Option Nat
  polarInvoiceId : String
  invoiceNumber : Option String
  amountDueCents : Int
  amountPaidCents : Option Int
  currency : String
  status : String
  dueDate : Option String
  periodStart : Option String
  periodEnd : Option String
  paidAt : Option String
  metadata : Option Metadata
  createdAt : String
  deriving DecidableEq, Repr

structure PaymentMethod where
  id : Nat
  userId : Nat
  customerId : Nat
  polarPaymentMethodId : String
  pmType : String
  brand : Option String
  last4 : Option String
  expMonth : Option Int
  expYear : Option Int
  isDefault : Bool
  createdAt : String
  deriving DecidableEq, Repr

/-- Untyped JSON payload data, restricted to the fields the handlers read. -/
structure PayloadData where
  id : String
  email : Option String
  email_verified : Option Bool
  metadata : Option Metadata
  created_at : Option String
  modified_at : Option String
  customer_id : Option String
  customer_email : Option String
  product_id : Option String
  status : Option String
  current_period_start : Option String
  current_period_end : Option String
  cancel_at_period_end : Option Bool
  canceled_at : Option String
  ended_at : Option String
  trial_start : Option String
  trial_end : Option String
  subscription_id : Option String
  number : Option String
  amount : Option Int
  amount_due : Option Int
  amount_paid : Option Int
  currency : Option String
  due_date : Option String
  period_start : Option String
  period_end : Option String
  paid_at : Option String
  pmType : Option String
  card_brand : Option String
  card_last4 : Option String
  card_exp_month : Option Int
  card_exp_year : Option Int
  deriving DecidableEq, Repr

/-- Neutral payload data with every optional field absent. -/
def PayloadData.base (i : String) : PayloadData :=
  { id := i, email := none, email_verified := none, metadata := none,
    created_at := none, modified_at := none, customer_id := none,
    customer_email := none, product_id := none, status := none,
    current_period_start := none, current_period_end := none,
    cancel_at_period_end := none, canceled_at := none, ended_at := none,
    trial_start := none, trial_end := none, subscription_id := none,
    number := none, amount := none, amount_due := none, amount_paid := none,
    currency := none, due_date := none, period_start := none,
    period_end := none, paid_at := none, pmType := none, card_brand := none,
    card_last4 := none, card_exp_month := none, card_exp_year := none }

structure Payload where
  id : Option String
  type : String
  data : PayloadData
  deriving DecidableEq, Repr

structure WebhookEvent where
  id : Nat
  eventId : String
  eventType : String
  source : String
  payload : Payload
  receivedAt : String
  attempts : Nat
  processedAt : Option String
  processingResult : Option String
  error : Option String
  lastAttemptAt : Option String
  deriving DecidableEq, Repr

structure Discrepancy where
  dtype : String
  localId : Nat
  polarId : String
  issue : String
  localData : Option String
  polarData : Option String
  deriving DecidableEq, Repr

structure AuditLog where
  id : Nat
  action : String
  resourceType : String
  count : Nat
  discrepancies : List Discrepancy
  createdAt : String
  deriving DecidableEq, Repr

structure SyncErrorEntry where
  customerId : String
  error : String
  deriving DecidableEq, Repr

structure SyncStatusRow where
  id : Nat
  key : String
  status : String
  synced : Nat
  failed : Nat
  errors : List SyncErrorEntry
  completedAt : String
  updatedAt : String
  deriving DecidableEq, Repr

/-- The document store. nextId models Convex id allocation on insert. -/
structure DB where
  nextId : Nat
  users : List User
  customers : List Customer
  subscriptions : List Subscription
  checkoutSessions : List CheckoutSession
  orders : List Order
  invoices : List Invoice
  paymentMethods : List PaymentMethod
  webhookEvents : List WebhookEvent
  auditLogs : List AuditLog
  billingSettings : List SyncStatusRow
  deriving DecidableEq, Repr

def DB.empty : DB :=
  { nextId := 0, users := [], customers := [], subscriptions := [],
    checkoutSessions := [], orders := [], invoices := [],
    paymentMethods := [], webhookEvents := [], auditLogs := [],
    billingSettings := [] }

/-! ### Internal queries (index lookups; first() is first-match) -/

def getWebhookEventById (db : DB) (eventId : String) : Option WebhookEvent :=
  db.webhookEvents.find? (fun e => e.eventId == eventId)

def getCustomerByPolarId (db : DB) (polarCustomerId : String) : Option Customer :=
  db.customers.find? (fun c => c.polarCustomerId == polarCustomerId)

def getCustomerById (db : DB) (customerId : Nat) : Option Customer :=
  db.customers.find? (fun c => c.id == customerId)

def getSubscriptionByPolarId (db : DB) (polarSubscriptionId : String) :
    Option Subscription :=
  db.subscriptions.find? (fun s => s.polarSubscriptionId == polarSubscriptionId)

/-! ### Event store mutators (webhooks.ts) -/

def storeWebhookEvent (db : DB) (eventId eventType source : String)
    (payload : Payload) (receivedAt : String) : DB :=
  { db with
    nextId := db.nextId + 1,
    webhookEvents := db.webhookEvents ++
      [{ id := db.nextId, eventId := eventId, eventType := eventType,
         source := source, payload := payload, receivedAt := receivedAt,
         attempts := 1, processedAt := none, processingResult := none,
         error := none, lastAttemptAt := none }] }

def markWebhookEventProcessed (db : DB) (eventId processingResult : String)
    (error : Option String) (now : String) : DB :=
  { db with
    webhookEvents := patchFirst (fun e => e.eventId == eventId)
      (fun e => { e with processedAt := some now,
                         processingResult := some processingResult,
                         error := error,
                         lastAttemptAt := some now })
      db.webhookEvents }

/-! ### Domain mutators -/

structure PolarCustomerArg where
  id : String
  email : String
  email_verified : Bool
  metadata : Option Metadata
  created_at : String
  modified_at : Option String
  deriving DecidableEq, Repr

/-- customers.ts createCustomerFromWebhook: look up by external id; patch
email, metadata (replaced by the incoming object, empty when absent) and
lastSyncedAt when found; otherwise match a user by email and insert. -/
def createCustomerFromWebhook (db : DB) (pc : PolarCustomerArg) (now : String) :
    Nat × DB :=
  match getCustomerByPolarId db pc.id with
  | some existing =>
      let cs := patchFirst (fun c => c.polarCustomerId == pc.id)
        (fun c => { c with email := pc.email,
                           metadata := pc.metadata.getD [],
                           lastSyncedAt := some now })
        db.customers
      (existing.id, { db with customers := cs })
  | none =>
      let user := db.users.find? (fun u => u.email == pc.email)
      (db.nextId,
       { db with
         nextId := db.nextId + 1,
         customers := db.customers ++
           [{ id := db.nextId, userId := user.map (fun u => u.id),
              orgId := none, email := pc.email, polarCustomerId := pc.id,
              metadata := pc.metadata.getD [], createdAt := now,
              lastSyncedAt := none }] })

/-- customers.ts updateCustomerFromPolar: patch email, metadata (replaced)
and lastSyncedAt on the customer with the given local id. -/
def updateCustomerFromPolar (db : DB) (customerId : Nat)
    (pc : PolarCustomerArg) (now : String) : DB :=
  let cs := patchFirst (fun c => c.id == customerId)
    (fun c => { c with email := pc.email,
                       metadata := pc.metadata.getD [],
                       lastSyncedAt := some now })
    db.customers
  { db with customers := cs }

structure CreateSubscriptionArgs where
  customerId : Nat
  polarSubscriptionId : String
  polarProductId : String
  planId : Option Nat
  status : SubStatus
  currentPeriodStart : Option String
  currentPeriodEnd : Option String
  trialStart : Option String
  trialEnd : Option String
  metadata : Option Metadata
  deriving DecidableEq, Repr

/-- subscriptions.ts createSubscription: patch when the external id exists
(existence check before insert), otherwise resolve the customer (throwing
when missing) and insert a new row. -/
def createSubscription (db : DB) (args : CreateSubscriptionArgs)
    (now : String) : Except String (Nat × DB) :=
  match getSubscriptionByPolarId db args.polarSubscriptionId with
  | some existing =>
      let subs := patchFirst
        (fun s => s.polarSubscriptionId == args.polarSubscriptionId)
        (fun s => { s with status := args.status,
                           currentPeriodStart := args.currentPeriodStart,
                           currentPeriodEnd := args.currentPeriodEnd,
                           metadata := args.metadata.getD [],
                           updatedAt := now,
                           lastSyncedAt := some now })
        db.subscriptions
      .ok (existing.id, { db with subscriptions := subs })
  | none =>
      match getCustomerById db args.customerId with
      | none => .error ("Customer " ++ toString args.customerId ++ " not found")
      | some customer =>
          .ok (db.nextId,
            { db with
              nextId := db.nextId + 1,
              subscriptions := db.subscriptions ++
                [{ id := db.nextId, customerId := args.customerId,
                   userId := customer.userId, orgId := customer.orgId,
                   polarSubscriptionId := args.polarSubscriptionId,
                   polarProductId := args.polarProductId,
                   planId := args.planId, status := args.status,
                   currentPeriodStart := args.currentPeriodStart,
                   currentPeriodEnd := args.currentPeriodEnd,
                   cancelAtPeriodEnd := some false, canceledAt := none,
                   endedAt := none, trialStart := args.trialStart,
                   trialEnd := args.trialEnd,
                   metadata := args.metadata.getD [], createdAt := now,
                   updatedAt := now, lastSyncedAt := none }] })

structure SubUpdates where
  status : Option String
  currentPeriodStart : Option String
  currentPeriodEnd : Option String
  cancelAtPeriodEnd : Option Bool
  canceledAt : Option String
  endedAt : Option String
  metadata : Option Metadata
  deriving DecidableEq, Repr

def SubUpdates.none_ : SubUpdates :=
  { status := none, currentPeriodStart := none, currentPeriodEnd := none,
    cancelAtPeriodEnd := none, canceledAt := none, endedAt := none,
    metadata := none }

/-- The conditional patch object built by updateSubscriptionFromWebhook:
string fields apply only when truthy, the cancel flag applies whenever
defined, metadata is spread-merged over the existing object. -/
def applySubUpdates (s : Subscription) (u : SubUpdates) (now : String) :
    Subscription :=
  let statusOpt : Option SubStatus :=
    match u.status with
    | some st => if st == "" then none else some (mapPolarStatus st)
    | none => none
  { s with
    updatedAt := now,
    lastSyncedAt := some now,
    status := statusOpt.getD s.status,
    currentPeriodStart :=
      if strTruthy u.currentPeriodStart then u.currentPeriodStart
      else s.currentPeriodStart,
    currentPeriodEnd :=
      if strTruthy u.currentPeriodEnd then u.currentPeriodEnd
      else s.currentPeriodEnd,
    cancelAtPeriodEnd :=
      match u.cancelAtPeriodEnd with
      | some b => some b
      | none => s.cancelAtPeriodEnd,
    canceledAt :=
      if strTruthy u.canceledAt then u.canceledAt else s.canceledAt,
    endedAt := if strTruthy u.endedAt then u.endedAt else s.endedAt,
    metadata :=
      match u.metadata with
      | some m => jsSpread s.metadata m
      | none => s.metadata }

/-- subscriptions.ts updateSubscriptionFromWebhook: patch the row found by
external subscription id, or do nothing (returning null) when absent. -/
def updateSubscriptionFromWebhook (db : DB) (polarSubscriptionId : String)
    (u : SubUpdates) (now : String) : DB × Option Nat :=
  match getSubscriptionByPolarId db polarSubscriptionId with
  | none => (db, none)
  | some sub =>
      let subs := patchFirst
        (fun s => s.polarSubscriptionId == polarSubscriptionId)
        (fun s => applySubUpdates s u now)
        db.subscriptions
      ({ db with subscriptions := subs }, some sub.id)

/-- checkout.ts completeCheckoutSession: idempotent completion; merges the
supplied metadata into the existing session metadata. -/
def completeCheckoutSession (db : DB) (polarCheckoutId : String)
    (completedAt : Option String) (metadata : Option Metadata)
    (now : String) : DB × Option Nat :=
  match db.checkoutSessions.find? (fun cs => cs.polarCheckoutId == polarCheckoutId) with
  | none => (db, none)
  | some session =>
      if session.status == "completed" then (db, some session.id)
      else
        let sessions := patchFirst
          (fun cs => cs.polarCheckoutId == polarCheckoutId)
          (fun cs => { cs with status := "completed",
                               completedAt := some (strOr completedAt now),
                               metadata := jsSpread cs.metadata (metadata.getD []) })
          db.checkoutSessions
        ({ db with checkoutSessions := sessions }, some session.id)

structure CreateOrderArgs where
  customerId : Nat
  polarOrderId : String
  amount : Int
  currency : String
  status : String
  metadata : Option Metadata
  deriving DecidableEq, Repr

/-- webhooks.ts createOrder: silently drops the order when the customer
record is gone; otherwise inserts. -/
def createOrder (db : DB) (args : CreateOrderArgs) (now : String) :
    DB × Option Nat :=
  match getCustomerById db args.customerId with
  | none => (db, none)
  | some customer =>
      (({ db with
          nextId := db.nextId + 1,
          orders := db.orders ++
            [{ id := db.nextId, userId := customer.userId,
               customerId := args.customerId,
               polarOrderId := args.polarOrderId,
               totalCents := args.amount, currency := args.currency,
               status := args.status, metadata := args.metadata,
               createdAt := now, updatedAt := now }] }),
       some db.nextId)

structure CreateInvoiceArgs where
  customerId : Nat
  subscriptionId : Option Nat
  polarInvoiceId : String
  invoiceNumber : Option String
  amountDue : Int
  currency : String
  status : String
  dueDate : Option String
  periodStart : Option String
  periodEnd : Option String
  metadata : Option Metadata
  deriving DecidableEq, Repr

/-- webhooks.ts createInvoice: patch status and amount due when the external
invoice id exists (the incoming metadata is dropped), else insert. -/
def createInvoice (db : DB) (args : CreateInvoiceArgs) (now : String) :
    DB × Option Nat :=
  match getCustomerById db args.customerId with
  | none => (db, none)
  | some customer =>
      match db.invoices.find? (fun i => i.polarInvoiceId == args.polarInvoiceId) with
      | some existing =>
          let invs := patchFirst
            (fun i => i.polarInvoiceId == args.polarInvoiceId)
            (fun i => { i with status := args.status,
                               amountDueCents := args.amountDue })
            db.invoices
          ({ db with invoices := invs }, some existing.id)
      | none =>
          (({ db with
              nextId := db.nextId + 1,
              invoices := db.invoices ++
                [{ id := db.nextId, userId := customer.userId,
                   customerId := args.customerId,
                   subscriptionId := args.subscriptionId,
                   polarInvoiceId := args.polarInvoiceId,
                   invoiceNumber := args.invoiceNumber,
                   amountDueCents := args.amountDue,
                   amountPaidCents := none, currency := args.currency,
                   status := args.status, dueDate := args.dueDate,
                   periodStart := args.periodStart,
                   periodEnd := args.periodEnd, paidAt := none,
                   metadata := args.metadata, createdAt := now }] }),
           some db.nextId)

/-- webhooks.ts updateInvoiceStatus: patch status, paidAt and amount paid on
the invoice found by external id. -/
def updateInvoiceStatus (db : DB) (polarInvoiceId status : String)
    (paidAt : Option String) (amountPaid : Option Int) : DB :=
  let invs := patchFirst
    (fun i => i.polarInvoiceId == polarInvoiceId)
    (fun i => { i with status := status, paidAt := paidAt,
                       amountPaidCents := amountPaid })
    db.invoices
  { db with invoices := invs }

structure CreatePaymentMethodArgs where
  userId : Nat
  customerId : Nat
  polarPaymentMethodId : String
  pmType : String
  brand : Option String
  last4 : Option String
  expMonth : Option Int
  expYear : Option Int
  deriving DecidableEq, Repr

/-- webhooks.ts createPaymentMethod: return the existing row untouched when
the external id exists, else insert. -/
def createPaymentMethod (db : DB) (args : CreatePaymentMethodArgs)
    (now : String) : DB × Nat :=
  match db.paymentMethods.find?
      (fun pm => pm.polarPaymentMethodId == args.polarPaymentMethodId) with
  | some existing => (db, existing.id)
  | none =>
      (({ db with
          nextId := db.nextId + 1,
          paymentMethods := db.paymentMethods ++
            [{ id := db.nextId, userId := args.userId,
               customerId := args.customerId,
               polarPaymentMethodId := args.polarPaymentMethodId,
               pmType := args.pmType, brand := args.brand,
               last4 := args.last4, expMonth := args.expMonth,
               expYear := args.expYear, isDefault := false,
               createdAt := now }] }),
       db.nextId)

/-- webhooks.ts deletePaymentMethod: delete the first row with the given
external id, if any. -/
def deletePaymentMethod (db : DB) (polarPaymentMethodId : String) : DB :=
  let pms := db.paymentMethods.eraseP
    (fun pm => pm.polarPaymentMethodId == polarPaymentMethodId)
  { db with paymentMethods := pms }

/-! ### Webhook event handlers (webhooks.ts) -/

def handleCustomerCreated (db : DB) (d : PayloadData) (now : String) : DB :=
  (createCustomerFromWebhook db
    { id := d.id, email := d.email.getD "",
      email_verified := d.email_verified.getD false, metadata := d.metadata,
      created_at := d.created_at.getD "", modified_at := d.modified_at }
    now).2

def handleCustomerUpdated (db : DB) (d : PayloadData) (now : String) : DB :=
  match getCustomerByPolarId db d.id with
  | some customer =>
      updateCustomerFromPolar db customer.id
        { id := d.id, email := d.email.getD "",
          email_verified := d.email_verified.getD false,
          metadata := d.metadata, created_at := d.created_at.getD "",
          modified_at := d.modified_at }
        now
  | none => db

/-- Helper shared by the two branches of handleSubscriptionCreated: build the
createSubscription arguments from the payload for a resolved customer. -/
def createSubForCustomer (db : DB) (customer : Customer) (d : PayloadData)
    (now : String) : Except String DB :=
  (createSubscription db
    { customerId := customer.id, polarSubscriptionId := d.id,
      polarProductId := d.product_id.getD "", planId := none,
      status := mapPolarStatus (d.status.getD ""),
      currentPeriodStart := d.current_period_start,
      currentPeriodEnd := d.current_period_end,
      trialStart := d.trial_start, trialEnd := d.trial_end,
      metadata := d.metadata }
    now).map (fun r => r.2)

def handleSubscriptionCreated (db : DB) (d : PayloadData) (now : String) :
    Except String DB :=
  match getCustomerByPolarId db (d.customer_id.getD "") with
  | some customer => createSubForCustomer db customer d now
  | none =>
      match createCustomerFromWebhook db
        { id := d.customer_id.getD "", email := strOr d.customer_email "",
          email_verified := false, metadata := none, created_at := now,
          modified_at := none }
        now with
      | (newId, db1) =>
          match getCustomerById db1 newId with
          | some customer => createSubForCustomer db1 customer d now
          | none => .ok db1

def handleSubscriptionUpdated (db : DB) (d : PayloadData) (now : String) : DB :=
  (updateSubscriptionFromWebhook db d.id
    { status := d.status, currentPeriodStart := d.current_period_start,
      currentPeriodEnd := d.current_period_end,
      cancelAtPeriodEnd := d.cancel_at_period_end, canceledAt := none,
      endedAt := none, metadata := d.metadata }
    now).1

def handleSubscriptionActive (db : DB) (d : PayloadData) (now : String) : DB :=
  (updateSubscriptionFromWebhook db d.id
    { status := some "active", currentPeriodStart := d.current_period_start,
      currentPeriodEnd := d.current_period_end, cancelAtPeriodEnd := none,
      canceledAt := none, endedAt := none, metadata := none }
    now).1

def handleSubscriptionCanceled (db : DB) (d : PayloadData) (now : String) : DB :=
  (updateSubscriptionFromWebhook db d.id
    { status := some "canceled", currentPeriodStart := none,
      currentPeriodEnd := none, cancelAtPeriodEnd := d.cancel_at_period_end,
      canceledAt := some (strOr d.canceled_at now), endedAt := d.ended_at,
      metadata := none }
    now).1

def handleSubscriptionRevoked (db : DB) (d : PayloadData) (now : String) : DB :=
  (updateSubscriptionFromWebhook db d.id
    { status := some "revoked", currentPeriodStart := none,
      currentPeriodEnd := none, cancelAtPeriodEnd := none,
      canceledAt := none, endedAt := some (strOr d.ended_at now),
      metadata := none }
    now).1

def handleCheckoutUpdated (db : DB) (d : PayloadData) (now : String) : DB :=
  if d.status == some "succeeded" || d.status == some "completed" then
    (completeCheckoutSession db d.id (some now)
      (some [("polarStatus", MVal.str (d.status.getD ""))]) now).1
  else db

def handleOrderCreated (db : DB) (d : PayloadData) (now : String) : DB :=
  match getCustomerByPolarId db (d.customer_id.getD "") with
  | some customer =>
      (createOrder db
        { customerId := customer.id, polarOrderId := d.id,
          amount := d.amount.getD 0, currency := d.currency.getD "",
          status := "pending", metadata := d.metadata }
        now).1
  | none => db

def handleInvoiceCreated (db : DB) (d : PayloadData) (now : String) : DB :=
  match getCustomerByPolarId db (d.customer_id.getD "") with
  | some customer =>
      let subscription :=
        if strTruthy d.subscription_id then
          getSubscriptionByPolarId db (d.subscription_id.getD "")
        else none
      (createInvoice db
        { customerId := customer.id,
          subscriptionId := subscription.map (fun s => s.id),
          polarInvoiceId := d.id, invoiceNumber := d.number,
          amountDue := d.amount_due.getD 0, currency := d.currency.getD "",
          status := d.status.getD "", dueDate := d.due_date,
          periodStart := d.period_start, periodEnd := d.period_end,
          metadata := d.metadata }
        now).1
  | none => db

def handleInvoicePaid (db : DB) (d : PayloadData) (now : String) : DB :=
  updateInvoiceStatus db d.id "paid" (some (strOr d.paid_at now)) d.amount_paid

def handlePaymentMethodAttached (db : DB) (d : PayloadData) (now : String) : DB :=
  match getCustomerByPolarId db (d.customer_id.getD "") with
  | some customer =>
      match customer.userId with
      | some uid =>
          (createPaymentMethod db
            { userId := uid, customerId := customer.id,
              polarPaymentMethodId := d.id, pmType := d.pmType.getD "",
              brand := d.card_brand, last4 := d.card_last4,
              expMonth := d.card_exp_month, expYear := d.card_exp_year }
            now).1
      | none => db
  | none => db

def handlePaymentMethodDetached (db : DB) (d : PayloadData) : DB :=
  deletePaymentMethod db d.id

/-- The event-type dispatch of webhooks.ts handlePolarWebhook.  The only
exception a reachable mutator can raise is createSubscription's
customer-not-found error, surfaced as the error case; unknown event types
are logged and succeed. -/
def processWebhookEvent (db : DB) (p : Payload) (now : String) :
    Except String DB :=
  match p.type with
  | "customer.created" => .ok (handleCustomerCreated db p.data now)
  | "customer.updated" => .ok (handleCustomerUpdated db p.data now)
  | "subscription.created" => handleSubscriptionCreated db p.data now
  | "subscription.updated" => .ok (handleSubscriptionUpdated db p.data now)
  | "subscription.active" => .ok (handleSubscriptionActive db p.data now)
  | "subscription.canceled" => .ok (handleSubscriptionCanceled db p.data now)
  | "subscription.revoked" => .ok (handleSubscriptionRevoked db p.data now)
  | "checkout.created" => .ok db
  | "checkout.updated" => .ok (handleCheckoutUpdated db p.data now)
  | "order.created" => .ok (handleOrderCreated db p.data now)
  | "invoice.created" => .ok (handleInvoiceCreated db p.data now)
  | "invoice.paid" => .ok (handleInvoicePaid db p.data now)
  | "payment_method.attached" => .ok (handlePaymentMethodAttached db p.data now)
  | "payment_method.detached" => .ok (handlePaymentMethodDetached db p.data)
  | _ => .ok db

/-! ### The two HTTP webhook dispatchers -/

/-- An inbound webhook request; a missing signature header is encoded as the
empty string, matching the JS null-coalescing to the empty string. -/
structure Request where
  payload : Payload
  signature : String
  deriving DecidableEq, Repr

/-- The idempotency key: the external event id when truthy, else the
type-and-arrival-time fallback. -/
def webhookEventId (p : Payload) (nowMs : Nat) : String :=
  match p.id with
  | some s => if s == "" then p.type ++ "_" ++ toString nowMs else s
  | none => p.type ++ "_" ++ toString nowMs

/-- webhooks.ts handlePolarWebhook: signature gate, secret gate, HMAC
verification (the crypto primitive is an oracle argument), event-store
dedup, store, dispatch, outcome marking.  Returns the new store and the
HTTP status. -/
def handlePolarWebhook (verify : Payload → String → String → Bool)
    (secret : Option String) (req : Request) (now : String) (nowMs : Nat)
    (db : DB) : DB × Nat :=
  if req.signature == "" then (db, 401)
  else
    match secret with
    | none => (db, 500)
    | some sec =>
        if !(verify req.payload req.signature sec) then (db, 401)
        else
          let eventId := webhookEventId req.payload nowMs
          match getWebhookEventById db eventId with
          | some _ => (db, 200)
          | none =>
              let db1 := storeWebhookEvent db eventId req.payload.type
                "polar" req.payload now
              match processWebhookEvent db1 req.payload now with
              | .ok db2 =>
                  (markWebhookEventProcessed db2 eventId "success" none now, 200)
              | .error msg =>
                  (markWebhookEventProcessed db1 eventId "error" (some msg) now, 500)

/-- polarWebhook.ts handlePolarWebhook: the handler actually routed at POST
/polar/webhook (http.ts imports it from ./polarWebhook).  It rejects a
missing signature with 400, never verifies the signature, only logs the
parsed event, and never touches the store. -/
def polarWebhookHandler (secret : Option String) (req : Request) (db : DB) :
    DB × Nat :=
  if req.signature == "" then (db, 400)
  else
    match secret with
    | none => (db, 500)
    | some _ => (db, 200)

/-! ### Dispatcher lemmas and the C1 and C2 claims -/

def exOk : Except ε α → Bool
  | .ok _ => true
  | .error _ => false

def c1Verify : Payload → String → String → Bool := fun _ _ _ => true

def c1Req : Request :=
  { payload := { id := some "evt_1", type := "subscription.updated",
                 data := PayloadData.base "sub_1" },
    signature := "sig1" }

def c2Req : Request :=
  { payload := { id := some "evt_1", type := "subscription.updated",
                 data := PayloadData.base "sub_1" },
    signature := "" }

/-- Customer document with prior metadata, for the C6 counterexample. -/
def c6Customer : Customer :=
  { id := 0, userId := none, orgId := none, email := "a@b.c",
    polarCustomerId := "cus_1", metadata := [("b", MVal.num 2)],
    createdAt := "t0", lastSyncedAt := none }

def c6DB : DB := { DB.empty with nextId := 1, customers := [c6Customer] }

def c6Arg : PolarCustomerArg :=
  { id := "cus_1", email := "a@b.c", email_verified := false,
    metadata := some [("a", MVal.num 1)], created_at := "t1",
    modified_at := none }

/-- Subscription document with prior metadata, for the C6 and C7 witnesses. -/
def c7Sub : Subscription :=
  { id := 0, customerId := 0, userId := none, orgId := none,
    polarSubscriptionId := "sub_1", polarProductId := "prod_1", planId := none,
    status := .active, currentPeriodStart := some "2024-01-01",
    currentPeriodEnd := some "2024-02-01", cancelAtPeriodEnd := some false,
    canceledAt := none, endedAt := none, trialStart := none, trialEnd := none,
    metadata := [("b", MVal.num 2)], createdAt := "t0", updatedAt := "t0",
    lastSyncedAt := none }

def c7DB : DB := { DB.empty with nextId := 1, subscriptions := [c7Sub] }

def c7U : SubUpdates :=
  { status := some "past_due", currentPeriodStart := some "2024-02-01",
    currentPeriodEnd := none, cancelAtPeriodEnd := some true,
    canceledAt := none, endedAt := none,
    metadata := some [("a", MVal.num 1)] }

def c6PM : PaymentMethod :=
  { id := 5, userId := 0, customerId := 0, polarPaymentMethodId := "pm_1",
    pmType := "card", brand := some "visa", last4 := some "4242",
    expMonth := none, expYear := none, isDefault := false, createdAt := "t0" }

def c6PMdb : DB := { DB.empty with nextId := 6, paymentMethods := [c6PM] }

def c6PMArgs : CreatePaymentMethodArgs :=
  { userId := 0, customerId := 0, polarPaymentMethodId := "pm_1",
    pmType := "card", brand := none, last4 := none, expMonth := none,
    expYear := none }

def c7Args : CreateSubscriptionArgs :=
  { customerId := 0, polarSubscriptionId := "sub_1",
    polarProductId := "prod_1", planId := none, status := .active,
    currentPeriodStart := some "2024-01-01",
    currentPeriodEnd := some "2024-02-01", trialStart := none,
    trialEnd := none, metadata := some [("a", MVal.num 1)] }

/-! ### Reconciliation engine (sync.ts).  Outbound Polar calls are oracles
passed as function arguments; each operation also returns the list of
external ids it called, so that "no call to the processor" is statable.
Wall-clock durations are abstracted away. -/

structure PolarSubItem where
  id : String
  status : String
  product_id : String
  customer_id : String
  current_period_start : String
  current_period_end : Option String
  cancel_at_period_end : Bool
  canceled_at : Option String
  metadata : Option Metadata
  deriving DecidableEq, Repr

/-- sync.ts syncSubscription: upsert by external subscription id with the
same literal status map; the insert resolves the customer for user/org
linkage and is silently dropped when the customer is gone. -/
def syncSubscription (db : DB) (customerId : Nat) (ps : PolarSubItem)
    (now : String) : DB :=
  match getSubscriptionByPolarId db ps.id with
  | some _ =>
      let subs := patchFirst (fun s => s.polarSubscriptionId == ps.id)
        (fun s => { s with status := mapPolarStatus ps.status,
                           currentPeriodStart := some ps.current_period_start,
                           currentPeriodEnd := ps.current_period_end,
                           cancelAtPeriodEnd := some ps.cancel_at_period_end,
                           canceledAt := ps.canceled_at,
                           updatedAt := now, lastSyncedAt := some now })
        db.subscriptions
      { db with subscriptions := subs }
  | none =>
      match getCustomerById db customerId with
      | none => db
      | some customer =>
          { db with
            nextId := db.nextId + 1,
            subscriptions := db.subscriptions ++
              [{ id := db.nextId, customerId := customerId,
                 userId := customer.userId, orgId := customer.orgId,
                 polarSubscriptionId := ps.id,
                 polarProductId := ps.product_id,
                 planId := none, status := mapPolarStatus ps.status,
                 currentPeriodStart := some ps.current_period_start,
                 currentPeriodEnd := ps.current_period_end,
                 cancelAtPeriodEnd := some ps.cancel_at_period_end,
                 canceledAt := ps.canceled_at, endedAt := none,
                 trialStart := none, trialEnd := none,
                 metadata := ps.metadata.getD [], createdAt := now,
                 updatedAt := now, lastSyncedAt := some now }] }

/-- sync.ts recordSyncStatus: append a lastSync summary row. -/
def recordSyncStatus (db : DB) (syncType status : String)
    (synced failed : Nat) (errors : List SyncErrorEntry) (now : String) : DB :=
  { db with
    nextId := db.nextId + 1,
    billingSettings := db.billingSettings ++
      [{ id := db.nextId, key := "lastSync_" ++ syncType, status := status,
         synced := synced, failed := failed, errors := errors,
         completedAt := now, updatedAt := now }] }

inductive SyncSubsResult where
  | skipped (reason : String) (nextRetry : Option Nat)
  | completed (synced failed : Nat) (errors : List SyncErrorEntry)
  deriving DecidableEq, Repr

def SyncSubsResult.statusStr : SyncSubsResult → String
  | .skipped _ _ => "skipped"
  | .completed _ _ _ => "completed"

/-- sync.ts syncAllSubscriptions: gate on the breaker, walk a batch of
customers, list subscriptions from Polar per non-manual customer, upsert
each, record a summary row, close the breaker.  Per-customer failures are
caught and counted; the outer total-failure catch (recordFailure and
rethrow) is unreachable here because the store operations cannot throw. -/
def syncAllSubscriptions
    (listSubs : String → Except String (List PolarSubItem))
    (batchSize : Option Nat) (db : DB) (cb : CircuitBreakerState)
    (nowMs : Nat) (now : String) :
    SyncSubsResult × DB × CircuitBreakerState × List String :=
  match checkCircuitBreaker nowMs cb with
  | (false, cb1) => (.skipped "Circuit breaker open" cb1.nextRetry, db, cb1, [])
  | (true, cb1) =>
      let bs := match batchSize with
        | some n => if n == 0 then 50 else n
        | none => 50
      let customers := db.customers.take bs
      let step := fun (acc : Nat × Nat × List SyncErrorEntry × DB × List String)
          (c : Customer) =>
        let (synced, failed, errors, dbA, calls) := acc
        if c.polarCustomerId.startsWith "manual_" then acc
        else
          match listSubs c.polarCustomerId with
          | .ok items =>
              let dbB := items.foldl
                (fun dacc it => syncSubscription dacc c.id it now) dbA
              (synced + items.length, failed, errors, dbB,
                calls ++ [c.polarCustomerId])
          | .error msg =>
              (synced, failed + 1, errors ++ [⟨toString c.id, msg⟩], dbA,
                calls ++ [c.polarCustomerId])
      match customers.foldl step (0, 0, [], db, []) with
      | (synced, failed, errors, dbA, calls) =>
          let dbB := recordSyncStatus dbA "subscriptions"
            (if failed == 0 then "success" else "partial") synced failed
            errors now
          (.completed synced failed (errors.take 10), dbB,
            recordSuccess cb1, calls)

inductive SyncInvResult where
  | skipped (reason : String)
  | completed (updated failed : Nat)
  deriving DecidableEq, Repr

def SyncInvResult.statusStr : SyncInvResult → String
  | .skipped _ => "skipped"
  | .completed _ _ => "completed"

/-- sync.ts updateInvoiceStatus (the by-local-id variant used by the invoice
sync job). -/
def updateInvoiceStatusById (db : DB) (invoiceId : Nat) (status : String)
    (paidAt : Option String) : DB :=
  let invs := patchFirst (fun i => i.id == invoiceId)
    (fun i => { i with status := status, paidAt := paidAt })
    db.invoices
  { db with invoices := invs }

/-- sync.ts syncPendingInvoices: gate on the breaker, walk pending
invoices, fetch the corresponding Polar order per non-manual invoice and
mark paid when an order comes back truthy. -/
def syncPendingInvoices (getOrder : String → Except String Bool)
    (db : DB) (cb : CircuitBreakerState) (nowMs : Nat) (now : String) :
    SyncInvResult × DB × CircuitBreakerState × List String :=
  match checkCircuitBreaker nowMs cb with
  | (false, cb1) => (.skipped "Circuit breaker open", db, cb1, [])
  | (true, cb1) =>
      let pending := db.invoices.filter (fun i => i.status == "pending")
      let step := fun (acc : Nat × Nat × DB × List String) (inv : Invoice) =>
        let (updated, failed, dbA, calls) := acc
        if inv.polarInvoiceId.startsWith "manual_" then acc
        else
          match getOrder inv.polarInvoiceId with
          | .ok b =>
              if b then
                (updated + 1, failed,
                  updateInvoiceStatusById dbA inv.id "paid" (some now),
                  calls ++ [inv.polarInvoiceId])
              else (updated, failed, dbA, calls ++ [inv.polarInvoiceId])
          | .error _ =>
              (updated, failed + 1, dbA, calls ++ [inv.polarInvoiceId])
      match pending.foldl step (0, 0, db, []) with
      | (updated, failed, dbA, calls) =>
          (.completed updated failed, dbA, recordSuccess cb1, calls)

/-! ### Reconcile/diff (sync.ts reconcileBilling) -/

inductive CheckType where
  | subscriptions
  | customers
  | invoices
  deriving DecidableEq, Repr

def CheckType.str : CheckType → String
  | .subscriptions => "subscriptions"
  | .customers => "customers"
  | .invoices => "invoices"

structure PolarSubView where
  status : String
  cancel_at_period_end : Bool
  deriving DecidableEq, Repr

structure PolarCustView where
  email : String
  deriving DecidableEq, Repr

structure ReconcileResult where
  checkType : String
  discrepanciesFound : Nat
  discrepancies : List Discrepancy
  deriving DecidableEq, Repr

def getActiveSubscriptions (db : DB) : List Subscription :=
  db.subscriptions.filter (fun s => s.status == SubStatus.active)

def boolStr (b : Bool) : String := if b then "true" else "false"

def optBoolStr : Option Bool → String
  | some b => boolStr b
  | none => "undefined"

/-- The per-subscription discrepancy entries of the reconcile loop: status
compared as strings, the cancel flag compared against the possibly-absent
local field. -/
def subEntries (sub : Subscription) (v : PolarSubView) : List Discrepancy :=
  (if v.status ≠ subStatusStr sub.status then
    [{ dtype := "status_mismatch", localId := sub.id,
       polarId := sub.polarSubscriptionId,
       issue := "Status mismatch: local=" ++ subStatusStr sub.status ++
         ", polar=" ++ v.status,
       localData := some (subStatusStr sub.status),
       polarData := some v.status }]
   else []) ++
  (if sub.cancelAtPeriodEnd ≠ some v.cancel_at_period_end then
    [{ dtype := "cancellation_mismatch", localId := sub.id,
       polarId := sub.polarSubscriptionId,
       issue := "Cancel at period end mismatch",
       localData := some (optBoolStr sub.cancelAtPeriodEnd),
       polarData := some (boolStr v.cancel_at_period_end) }]
   else [])

def subNotFound (sub : Subscription) : Discrepancy :=
  { dtype := "not_found_in_polar", localId := sub.id,
    polarId := sub.polarSubscriptionId,
    issue := "Subscription not found in Polar",
    localData := none, polarData := none }

/-- The reconcile loop over local subscriptions: manual rows are skipped
without a call; every other row costs exactly one processor call and
contributes its mismatch entries (or a not-found entry). -/
def reconcileSubsScan (getSub : String → Except String PolarSubView) :
    List Subscription → List Discrepancy × List String
  | [] => ([], [])
  | sub :: rest =>
      if sub.polarSubscriptionId.startsWith "manual_" then
        reconcileSubsScan getSub rest
      else
        match getSub sub.polarSubscriptionId with
        | .ok v =>
            (subEntries sub v ++ (reconcileSubsScan getSub rest).1,
             sub.polarSubscriptionId :: (reconcileSubsScan getSub rest).2)
        | .error _ =>
            (subNotFound sub :: (reconcileSubsScan getSub rest).1,
             sub.polarSubscriptionId :: (reconcileSubsScan getSub rest).2)

def custEntries (c : Customer) (v : PolarCustView) : List Discrepancy :=
  if v.email ≠ c.email then
    [{ dtype := "email_mismatch", localId := c.id,
       polarId := c.polarCustomerId, issue := "Email mismatch",
       localData := some c.email, polarData := some v.email }]
  else []

def custNotFound (c : Customer) : Discrepancy :=
  { dtype := "not_found_in_polar", localId := c.id,
    polarId := c.polarCustomerId, issue := "Customer not found in Polar",
    localData := none, polarData := none }

def reconcileCustScan (getCust : String → Except String PolarCustView) :
    List Customer → List Discrepancy × List String
  | [] => ([], [])
  | c :: rest =>
      if c.polarCustomerId.startsWith "manual_" then
        reconcileCustScan getCust rest
      else
        match getCust c.polarCustomerId with
        | .ok v =>
            (custEntries c v ++ (reconcileCustScan getCust rest).1,
             c.polarCustomerId :: (reconcileCustScan getCust rest).2)
        | .error _ =>
            (custNotFound c :: (reconcileCustScan getCust rest).1,
             c.polarCustomerId :: (reconcileCustScan getCust rest).2)

/-- sync.ts logDiscrepancies: append one audit log row carrying the full
discrepancy list. -/
def logDiscrepancies (db : DB) (checkType : String)
    (discs : List Discrepancy) (now : String) : DB :=
  { db with
    nextId := db.nextId + 1,
    auditLogs := db.auditLogs ++
      [{ id := db.nextId, action := "reconciliation.discrepancies",
         resourceType := checkType, count := discs.length,
         discrepancies := discs, createdAt := now }] }

/-- sync.ts reconcileBilling: detect-only comparison.  Note: no circuit
breaker gate, no status field in the result, and the returned list is
truncated to the first 20 entries while the audit log receives them all.
The invoices check type has no case in the source switch and does
nothing. -/
def reconcileScan (getSub : String → Except String PolarSubView)
    (getCust : String → Except String PolarCustView) (ct : CheckType)
    (db : DB) : List Discrepancy × List String :=
  match ct with
  | .subscriptions => reconcileSubsScan getSub (getActiveSubscriptions db)
  | .customers => reconcileCustScan getCust (db.customers.take 100)
  | .invoices => ([], [])

def reconcileBilling (getSub : String → Except String PolarSubView)
    (getCust : String → Except String PolarCustView)
    (checkType : Option CheckType) (db : DB) (now : String) :
    ReconcileResult × DB × List String :=
  let discrepancies :=
    (reconcileScan getSub getCust (checkType.getD .subscriptions) db).1
  let calls :=
    (reconcileScan getSub getCust (checkType.getD .subscriptions) db).2
  let db1 := if discrepancies.isEmpty then db
    else logDiscrepancies db (checkType.getD .subscriptions).str
      discrepancies now
  ({ checkType := (checkType.getD .subscriptions).str,
     discrepanciesFound := discrepancies.length,
     discrepancies := discrepancies.take 20 }, db1, calls)

def c4CB : CircuitBreakerState :=
  { isOpen := true, failures := 3, lastFailure := some 0,
    nextRetry := some 1000 }

def c4Sub : Subscription :=
  { id := 1, customerId := 0, userId := none, orgId := none,
    polarSubscriptionId := "sub_1", polarProductId := "prod_1",
    planId := none, status := .active, currentPeriodStart := none,
    currentPeriodEnd := none, cancelAtPeriodEnd := some false,
    canceledAt := none, endedAt := none, trialStart := none,
    trialEnd := none, metadata := [], createdAt := "t0", updatedAt := "t0",
    lastSyncedAt := none }

def c4DB : DB := { DB.empty with nextId := 2, subscriptions := [c4Sub] }

def c4GetSub : String → Except String PolarSubView :=
  fun _ => .ok { status := "past_due", cancel_at_period_end := false }

def c4GetCust : String → Except String PolarCustView :=
  fun _ => .ok { email := "x@y.z" }

def c8Sub (i : Nat) : Subscription :=
  { id := i, customerId := 0, userId := none, orgId := none,
    polarSubscriptionId := "sub_" ++ toString i, polarProductId := "prod_1",
    planId := none, status := .active, currentPeriodStart := none,
    currentPeriodEnd := none, cancelAtPeriodEnd := some false,
    canceledAt := none, endedAt := none, trialStart := none,
    trialEnd := none, metadata := [], createdAt := "t0", updatedAt := "t0",
    lastSyncedAt := none }

def c8DB : DB :=
  { DB.empty with
    nextId := 12,
    subscriptions := (List.range 11).map (fun i => c8Sub (i + 1)) }

def c8GetSub : String → Except String PolarSubView :=
  fun _ => .ok { status := "past_due", cancel_at_period_end := true }

/-! ### Usage batching (usageTracking.ts).  The metering endpoint is an
oracle; Date.now() is the nowMs argument. -/

structure UsageEvent where
  id : Nat
  userId : Nat
  polarCustomerId : Option String
  eventType : String
  eventName : String
  units : Int
  metadata : Metadata
  createdAt : String
  processed : Bool
  ingestedAt : Option String
  polarEventId : Option String
  error : Option String
  deriving DecidableEq, Repr

structure UsageDB where
  usageEvents : List UsageEvent
  deriving DecidableEq, Repr

/-- usageTracking.ts getUnprocessedEvents: index on processed = false, then
take the batch limit. -/
def getUnprocessedEvents (db : UsageDB) (limit : Nat) : List UsageEvent :=
  (db.usageEvents.filter (fun e => e.processed == false)).take limit

/-- The JS batchSize or-else-100 default (0 is falsy). -/
def batchLimit (b : Option Nat) : Nat :=
  match b with
  | some n => if n == 0 then 100 else n
  | none => 100

/-- Insertion into the eventsByCustomer dictionary: first-occurrence key
order, events appended in order within a key. -/
def addToGroups (cid : String) (e : UsageEvent) :
    List (String × List UsageEvent) → List (String × List UsageEvent)
  | [] => [(cid, [e])]
  | (k, es) :: t =>
      if k == cid then (k, es ++ [e]) :: t
      else (k, es) :: addToGroups cid e t

/-- The grouping loop of batchIngestUsage: events with no truthy external
customer id are skipped. -/
def groupByCustomer (l : List UsageEvent) : List (String × List UsageEvent) :=
  l.foldl
    (fun gs e =>
      if strTruthy e.polarCustomerId then
        addToGroups (e.polarCustomerId.getD "") e gs
      else gs)
    []

structure PolarUsageEvent where
  customer_id : String
  event_name : String
  ptype : String
  units : Int
  metadata : Metadata
  timestamp : String
  deriving DecidableEq, Repr

/-- The metering payload built per event (properties hold the event type,
units and the spread metadata). -/
def toPolarEvent (cid : String) (e : UsageEvent) : PolarUsageEvent :=
  { customer_id := cid, event_name := e.eventName, ptype := e.eventType,
    units := e.units, metadata := e.metadata, timestamp := e.createdAt }

structure IngestResp where
  accepted : Nat
  rejected : Nat
  deriving DecidableEq, Repr

/-- usageTracking.ts markEventProcessed: always sets processed = true and
ingestedAt; sets polarEventId and error only when supplied (the success
argument is accepted but unused, as in the source). -/
def markEventProcessed (db : UsageDB) (eventId : Nat)
    (polarEventId : Option String) (success : Bool) (error : Option String)
    (now : String) : UsageDB :=
  { usageEvents := db.usageEvents.map (fun e =>
      if e.id == eventId then
        { e with processed := true, ingestedAt := some now,
                 polarEventId :=
                   if polarEventId.isSome then polarEventId else e.polarEventId,
                 error := if error.isSome then error else e.error }
      else e) }

/-- The per-group marking loop. -/
def markAll (db : UsageDB) (evs : List UsageEvent) (polarEventId : Option String)
    (success : Bool) (error : Option String) (now : String) : UsageDB :=
  evs.foldl (fun d e => markEventProcessed d e.id polarEventId success error now) db

/-- The send-and-mark loop over customer groups: a successful metering call
marks every event in the group processed with a batch id and adds the
oracle's accepted/rejected counts; a failed call marks every event in the
group processed with the error message and counts the whole group as
failed. -/
def ingestGroups (ingest : String → List PolarUsageEvent → Except String IngestResp)
    (nowMs : Nat) (now : String)
    (groups : List (String × List UsageEvent)) (acc : (Nat × Nat) × UsageDB) :
    (Nat × Nat) × UsageDB :=
  match groups with
  | [] => acc
  | (cid, evs) :: rest =>
      match ingest cid (evs.map (toPolarEvent cid)) with
      | .ok r =>
          ingestGroups ingest nowMs now rest
            ((acc.1.1 + r.accepted, acc.1.2 + r.rejected),
             markAll acc.2 evs (some ("batch_" ++ toString nowMs)) true none now)
      | .error msg =>
          ingestGroups ingest nowMs now rest
            ((acc.1.1, acc.1.2 + evs.length),
             markAll acc.2 evs none false (some msg) now)

/-- usageTracking.ts batchIngestUsage. -/
def batchIngestUsage
    (ingest : String → List PolarUsageEvent → Except String IngestResp)
    (batchSize : Option Nat) (db : UsageDB) (nowMs : Nat) (now : String) :
    (Nat × Nat) × UsageDB :=
  if (getUnprocessedEvents db (batchLimit batchSize)).length == 0 then
    ((0, 0), db)
  else
    ingestGroups ingest nowMs now
      (groupByCustomer (getUnprocessedEvents db (batchLimit batchSize)))
      ((0, 0), db)

/-! ### Usage batching lemmas -/

def allIds (groups : List (String × List UsageEvent)) : List Nat :=
  (groups.map (fun g => g.2.map (fun x => x.id))).flatten

def failIngest (msg : String) :
    String → List PolarUsageEvent → Except String IngestResp :=
  fun _ _ => .error msg

def c9E1 : UsageEvent :=
  { id := 1, userId := 0, polarCustomerId := some "cus_1",
    eventType := "api_call", eventName := "api.call", units := 2,
    metadata := [], createdAt := "t0", processed := false,
    ingestedAt := none, polarEventId := none, error := none }

def c9DB : UsageDB := { usageEvents := [c9E1] }

def c10E1 : UsageEvent :=
  { id := 1, userId := 0, polarCustomerId := some "cus_1",
    eventType := "api_call", eventName := "api.call", units := 2,
    metadata := [], createdAt := "t0", processed := false,
    ingestedAt := none, polarEventId := none, error := none }

def c10E : UsageEvent :=
  { id := 2, userId := 0, polarCustomerId := none,
    eventType := "api_call", eventName := "api.call", units := 1,
    metadata := [], createdAt := "t0", processed := false,
    ingestedAt := none, polarEventId := none, error := none }

def c10DB : UsageDB := { usageEvents := [c10E1, c10E] }

/-! ### Theorems -/

theorem jsSpread_idem (a b : Metadata) : jsSpread (jsSpread a b) b = jsSpread a b := by
  unfold jsSpread
  rw [List.filter_append]
  have hb : b.filter (fun q => !(b.any (fun r => r.1 = q.1))) = [] := by
    apply List.filter_eq_nil_iff.2
    intro q hq
    have hany : b.any (fun r => r.1 = q.1) = true :=
      List.any_eq_true.2 ⟨q, hq, by simp⟩
    simp [hany]
  rw [hb, List.append_nil, List.filter_filter]
  congr 1
  apply List.filter_congr
  intro x _
  simp

/-! ### Claim theorems: C3 and C5 -/

/-- C3: after 3 consecutive recordFailure calls the breaker is open with
nextRetryAt = now + 5 minutes; checkAllowed denies (leaving the state
untouched) at every time before nextRetryAt; at or past nextRetryAt it
resets the failure count to 0, closes the breaker and allows; and
recordSuccess always resets the failure counter to 0 and closes the
breaker. -/
theorem C3_circuit_breaker_trip_reset (t1 t2 t3 : Nat) :
    (trippedBreaker t1 t2 t3).isOpen = true ∧
    (trippedBreaker t1 t2 t3).nextRetry = some (t3 + cooldownMs) ∧
    (∀ now, now < t3 + cooldownMs →
      checkCircuitBreaker now (trippedBreaker t1 t2 t3) =
        (false, trippedBreaker t1 t2 t3)) ∧
    (∀ now, t3 + cooldownMs ≤ now →
      checkCircuitBreaker now (trippedBreaker t1 t2 t3) =
        (true, { trippedBreaker t1 t2 t3 with isOpen := false, failures := 0 })) ∧
    (∀ cb : CircuitBreakerState,
      (recordSuccess cb).failures = 0 ∧ (recordSuccess cb).isOpen = false) := by
  have hcb : trippedBreaker t1 t2 t3 =
      { isOpen := true, failures := 3, lastFailure := some t3,
        nextRetry := some (t3 + cooldownMs) } := by
    simp [trippedBreaker, recordFailure, initialBreaker]
  refine ⟨by rw [hcb], by rw [hcb], ?_, ?_, ?_⟩
  · intro now hnow
    rw [hcb]
    simp [checkCircuitBreaker, hnow]
  · intro now hnow
    rw [hcb]
    simp [checkCircuitBreaker, Nat.not_lt.2 hnow]
  · intro cb
    exact ⟨rfl, rfl⟩

theorem C3_circuit_breaker_trip_reset_witness :
    checkCircuitBreaker 299999 (trippedBreaker 0 0 0) =
      (false, trippedBreaker 0 0 0) ∧
    checkCircuitBreaker 300000 (trippedBreaker 0 0 0) =
      (true, { trippedBreaker 0 0 0 with isOpen := false, failures := 0 }) :=
  ⟨(C3_circuit_breaker_trip_reset 0 0 0).2.2.1 299999 (by decide),
   (C3_circuit_breaker_trip_reset 0 0 0).2.2.2.1 300000 (by decide)⟩

/-- C5: the status-mapping function is total: it returns the matching state
for each of the seven known processor statuses, and revoked for every other
string. -/
theorem C5_status_mapping_total :
    (mapPolarStatus "incomplete" = .incomplete ∧
     mapPolarStatus "incomplete_expired" = .incomplete_expired ∧
     mapPolarStatus "trialing" = .trialing ∧
     mapPolarStatus "active" = .active ∧
     mapPolarStatus "past_due" = .past_due ∧
     mapPolarStatus "canceled" = .canceled ∧
     mapPolarStatus "unpaid" = .unpaid) ∧
    ∀ s : String, s ∉ knownPolarStatuses → mapPolarStatus s = .revoked := by
  refine ⟨by decide, ?_⟩
  intro s hs
  simp only [knownPolarStatuses, List.mem_cons, List.not_mem_nil, or_false,
    not_or] at hs
  obtain ⟨h1, h2, h3, h4, h5, h6, h7⟩ := hs
  simp [mapPolarStatus, h1, h2, h3, h4, h5, h6, h7]

theorem C5_status_mapping_total_witness :
    mapPolarStatus "paused" = .revoked :=
  C5_status_mapping_total.2 "paused" (by decide)

theorem patchFirst_length (p : α → Bool) (f : α → α) (l : List α) :
    (patchFirst p f l).length = l.length := by
  induction l with
  | nil => rfl
  | cons x xs ih =>
    by_cases h : p x = true <;> simp [patchFirst, h, ih]

theorem patchFirst_idem (p : α → Bool) (f : α → α) (l : List α)
    (hpres : ∀ x, p x = true → p (f x) = true)
    (hidem : ∀ x, p x = true → f (f x) = f x) :
    patchFirst p f (patchFirst p f l) = patchFirst p f l := by
  induction l with
  | nil => rfl
  | cons x xs ih =>
    by_cases h : p x = true
    · simp [patchFirst, h, hpres x h, hidem x h]
    · simp [patchFirst, h, ih]

/-! ### Generic lemmas about patchFirst, find? and jsSpread -/

theorem patchFirst_comp (p : α → Bool) (f g : α → α) (l : List α)
    (hpres : ∀ x, p x = true → p (f x) = true)
    (hcomp : ∀ x, p x = true → g (f x) = g x) :
    patchFirst p g (patchFirst p f l) = patchFirst p g l := by
  induction l with
  | nil => rfl
  | cons x xs ih =>
    by_cases h : p x = true
    · simp [patchFirst, h, hpres x h, hcomp x h]
    · simp [patchFirst, h, ih]

theorem find?_patchFirst_isSome (p q : α → Bool) (f : α → α)
    (hf : ∀ x, q (f x) = q x) (l : List α) :
    ((patchFirst p f l).find? q).isSome = (l.find? q).isSome := by
  induction l with
  | nil => rfl
  | cons x xs ih =>
    by_cases hp : p x = true
    · simp only [patchFirst, hp, if_pos]
      cases hq : q x with
      | true =>
        rw [List.find?_cons_of_pos _ (by rw [hf x]; exact hq),
            List.find?_cons_of_pos _ hq]
        rfl
      | false =>
        rw [List.find?_cons_of_neg _ (by rw [hf x, hq]; simp),
            List.find?_cons_of_neg _ (by rw [hq]; simp)]
    · simp only [patchFirst, hp, if_neg, Bool.false_eq_true,
        not_false_eq_true]
      cases hq : q x with
      | true =>
        rw [List.find?_cons_of_pos _ hq, List.find?_cons_of_pos _ hq]
      | false =>
        rw [List.find?_cons_of_neg _ (by rw [hq]; simp),
            List.find?_cons_of_neg _ (by rw [hq]; simp)]
        exact ih

theorem find?_patchFirst_same (p : α → Bool) (f : α → α)
    (hf : ∀ x, p (f x) = p x) (l : List α) :
    (patchFirst p f l).find? p = (l.find? p).map f := by
  induction l with
  | nil => rfl
  | cons x xs ih =>
    by_cases hp : p x = true
    · simp only [patchFirst, hp, if_pos]
      rw [List.find?_cons_of_pos _ (by rw [hf x]; exact hp),
          List.find?_cons_of_pos _ hp]
      rfl
    · simp only [patchFirst, hp, if_neg, Bool.false_eq_true,
        not_false_eq_true]
      rw [List.find?_cons_of_neg _ (by simpa using hp),
          List.find?_cons_of_neg _ (by simpa using hp)]
      exact ih

theorem metaLookup_nil (k : String) : metaLookup [] k = none := rfl

theorem metaLookup_eq_none_of_any_false (m : Metadata) (k : String)
    (h : m.any (fun q => q.1 = k) = false) : metaLookup m k = none := by
  unfold metaLookup
  have hnone : m.find? (fun p => p.1 = k) = none := by
    rw [List.find?_eq_none]
    intro x hx hpx
    have hany : m.any (fun q => q.1 = k) = true :=
      List.any_eq_true.2 ⟨x, hx, hpx⟩
    rw [hany] at h
    cases h
  rw [hnone]

theorem metaLookup_isSome_of_any_true (m : Metadata) (k : String)
    (h : m.any (fun q => q.1 = k) = true) : (metaLookup m k).isSome = true := by
  unfold metaLookup
  simp only [List.any_eq_true, decide_eq_true_eq] at h
  obtain ⟨q, hq, hqk⟩ := h
  have : (m.find? (fun p => p.1 = k)).isSome = true :=
    List.find?_isSome.2 ⟨q, hq, by simpa using hqk⟩
  cases hfind : m.find? (fun p => p.1 = k) with
  | none => rw [hfind] at this; simp at this
  | some v => simp

/-- Lookup through the object-spread merge: the update wins on its own keys,
the old object answers otherwise. -/
theorem metaLookup_jsSpread (a b : Metadata) (k : String) :
    metaLookup (jsSpread a b) k =
      match metaLookup b k with
      | some v => some v
      | none => metaLookup a k := by
  induction a with
  | nil =>
    show metaLookup b k = _
    cases h : metaLookup b k <;> simp [metaLookup_nil]
  | cons p rest ih =>
    by_cases hb : b.any (fun q => q.1 = p.1) = true
    · have hspread : jsSpread (p :: rest) b = jsSpread rest b := by
        unfold jsSpread
        simp [List.filter_cons, hb]
      rw [hspread, ih]
      by_cases hpk : p.1 = k
      · subst hpk
        have := metaLookup_isSome_of_any_true b p.1 hb
        cases hbk : metaLookup b p.1 with
        | none => rw [hbk] at this; simp at this
        | some v => simp
      · have hrest : metaLookup (p :: rest) k = metaLookup rest k := by
          unfold metaLookup
          rw [List.find?_cons_of_neg _ (by simpa using hpk)]
        rw [hrest]
    · have hspread : jsSpread (p :: rest) b = p :: jsSpread rest b := by
        unfold jsSpread
        simp [List.filter_cons, hb]
      rw [hspread]
      by_cases hpk : p.1 = k
      · have hbk : metaLookup b k = none := by
          apply metaLookup_eq_none_of_any_false
          rw [← hpk]
          exact Bool.eq_false_iff.mpr hb
        have hl : metaLookup (p :: jsSpread rest b) k = some p.2 := by
          unfold metaLookup
          rw [List.find?_cons_of_pos _ (by simpa using hpk)]
        have hr : metaLookup (p :: rest) k = some p.2 := by
          unfold metaLookup
          rw [List.find?_cons_of_pos _ (by simpa using hpk)]
        rw [hl, hbk, hr]
      · have hl : metaLookup (p :: jsSpread rest b) k = metaLookup (jsSpread rest b) k := by
          unfold metaLookup
          rw [List.find?_cons_of_neg _ (by simpa using hpk)]
        have hr : metaLookup (p :: rest) k = metaLookup rest k := by
          unfold metaLookup
          rw [List.find?_cons_of_neg _ (by simpa using hpk)]
        rw [hl, hr, ih]

/-! ### The event store is written only by the dispatcher, not by the domain
mutators: every dispatch path preserves the webhookEvents log. -/

theorem webhookEvents_createCustomerFromWebhook (db : DB)
    (pc : PolarCustomerArg) (now : String) :
    ((createCustomerFromWebhook db pc now).2).webhookEvents = db.webhookEvents := by
  unfold createCustomerFromWebhook
  cases getCustomerByPolarId db pc.id <;> rfl

theorem webhookEvents_createSubscription (db : DB)
    (a : CreateSubscriptionArgs) (now : String) (r : Nat × DB)
    (h : createSubscription db a now = .ok r) :
    r.2.webhookEvents = db.webhookEvents := by
  unfold createSubscription at h
  cases hs : getSubscriptionByPolarId db a.polarSubscriptionId with
  | some existing =>
      rw [hs] at h
      injection h with h
      subst h
      rfl
  | none =>
      rw [hs] at h
      cases hc : getCustomerById db a.customerId with
      | none => rw [hc] at h; cases h
      | some customer =>
          rw [hc] at h
          injection h with h
          subst h
          rfl

theorem webhookEvents_createSubForCustomer (db : DB) (c : Customer)
    (d : PayloadData) (now : String) (db2 : DB)
    (h : createSubForCustomer db c d now = .ok db2) :
    db2.webhookEvents = db.webhookEvents := by
  unfold createSubForCustomer at h
  cases hs : createSubscription db
      { customerId := c.id, polarSubscriptionId := d.id,
        polarProductId := d.product_id.getD "", planId := none,
        status := mapPolarStatus (d.status.getD ""),
        currentPeriodStart := d.current_period_start,
        currentPeriodEnd := d.current_period_end,
        trialStart := d.trial_start, trialEnd := d.trial_end,
        metadata := d.metadata } now with
  | ok r =>
      rw [hs] at h
      injection h with h
      subst h
      exact webhookEvents_createSubscription _ _ _ _ hs
  | error e => rw [hs] at h; cases h

theorem webhookEvents_handleSubscriptionCreated (db : DB) (d : PayloadData)
    (now : String) (db2 : DB)
    (h : handleSubscriptionCreated db d now = .ok db2) :
    db2.webhookEvents = db.webhookEvents := by
  unfold handleSubscriptionCreated at h
  cases hc : getCustomerByPolarId db (d.customer_id.getD "") with
  | some customer =>
      rw [hc] at h
      exact webhookEvents_createSubForCustomer _ _ _ _ _ h
  | none =>
      rw [hc] at h
      cases hcp : createCustomerFromWebhook db
        { id := d.customer_id.getD "", email := strOr d.customer_email "",
          email_verified := false, metadata := none, created_at := now,
          modified_at := none } now with
      | mk newId db1 =>
        rw [hcp] at h
        dsimp only at h
        have hpres := webhookEvents_createCustomerFromWebhook db
          { id := d.customer_id.getD "", email := strOr d.customer_email "",
            email_verified := false, metadata := none, created_at := now,
            modified_at := none } now
        rw [hcp] at hpres
        cases hcc : getCustomerById db1 newId with
        | some customer =>
            rw [hcc] at h
            have h1 := webhookEvents_createSubForCustomer _ _ _ _ _ h
            rw [h1]
            exact hpres
        | none =>
            rw [hcc] at h
            injection h with h
            subst h
            exact hpres

theorem webhookEvents_updateSubscriptionFromWebhook (db : DB) (pid : String)
    (u : SubUpdates) (now : String) :
    ((updateSubscriptionFromWebhook db pid u now).1).webhookEvents =
      db.webhookEvents := by
  unfold updateSubscriptionFromWebhook
  cases getSubscriptionByPolarId db pid <;> rfl

theorem webhookEvents_completeCheckoutSession (db : DB) (pcid : String)
    (compAt : Option String) (md : Option Metadata) (now : String) :
    ((completeCheckoutSession db pcid compAt md now).1).webhookEvents =
      db.webhookEvents := by
  unfold completeCheckoutSession
  cases db.checkoutSessions.find? (fun cs => cs.polarCheckoutId == pcid) with
  | none => rfl
  | some session =>
      by_cases hst : (session.status == "completed") = true <;> simp [hst]

theorem webhookEvents_createOrder (db : DB) (a : CreateOrderArgs)
    (now : String) :
    ((createOrder db a now).1).webhookEvents = db.webhookEvents := by
  unfold createOrder
  cases getCustomerById db a.customerId <;> rfl

theorem webhookEvents_createInvoice (db : DB) (a : CreateInvoiceArgs)
    (now : String) :
    ((createInvoice db a now).1).webhookEvents = db.webhookEvents := by
  unfold createInvoice
  cases getCustomerById db a.customerId with
  | none => rfl
  | some customer =>
      cases db.invoices.find? (fun i => i.polarInvoiceId == a.polarInvoiceId) <;> rfl

theorem webhookEvents_createPaymentMethod (db : DB)
    (a : CreatePaymentMethodArgs) (now : String) :
    ((createPaymentMethod db a now).1).webhookEvents = db.webhookEvents := by
  unfold createPaymentMethod
  cases db.paymentMethods.find?
      (fun pm => pm.polarPaymentMethodId == a.polarPaymentMethodId) <;> rfl

theorem webhookEvents_processWebhookEvent (db : DB) (p : Payload)
    (now : String) (db2 : DB) (h : processWebhookEvent db p now = .ok db2) :
    db2.webhookEvents = db.webhookEvents := by
  unfold processWebhookEvent at h
  split at h
  case _ => -- customer.created
    injection h with h; subst h
    exact webhookEvents_createCustomerFromWebhook _ _ _
  case _ => -- customer.updated
    injection h with h; subst h
    unfold handleCustomerUpdated
    cases getCustomerByPolarId db p.data.id <;> rfl
  case _ => -- subscription.created
    exact webhookEvents_handleSubscriptionCreated _ _ _ _ h
  case _ => -- subscription.updated
    injection h with h; subst h
    exact webhookEvents_updateSubscriptionFromWebhook _ _ _ _
  case _ => -- subscription.active
    injection h with h; subst h
    exact webhookEvents_updateSubscriptionFromWebhook _ _ _ _
  case _ => -- subscription.canceled
    injection h with h; subst h
    exact webhookEvents_updateSubscriptionFromWebhook _ _ _ _
  case _ => -- subscription.revoked
    injection h with h; subst h
    exact webhookEvents_updateSubscriptionFromWebhook _ _ _ _
  case _ => -- checkout.created
    injection h with h; subst h; rfl
  case _ => -- checkout.updated
    injection h with h; subst h
    unfold handleCheckoutUpdated
    by_cases hc : (p.data.status == some "succeeded" ||
        p.data.status == some "completed") = true
    · simp only [hc, if_true]
      exact webhookEvents_completeCheckoutSession _ _ _ _ _
    · simp [hc]
  case _ => -- order.created
    injection h with h; subst h
    unfold handleOrderCreated
    cases getCustomerByPolarId db (p.data.customer_id.getD "") with
    | none => rfl
    | some customer => exact webhookEvents_createOrder _ _ _
  case _ => -- invoice.created
    injection h with h; subst h
    unfold handleInvoiceCreated
    cases getCustomerByPolarId db (p.data.customer_id.getD "") with
    | none => rfl
    | some customer => exact webhookEvents_createInvoice _ _ _
  case _ => -- invoice.paid
    injection h with h; subst h
    rfl
  case _ => -- payment_method.attached
    injection h with h; subst h
    unfold handlePaymentMethodAttached
    cases getCustomerByPolarId db (p.data.customer_id.getD "") with
    | none => rfl
    | some customer =>
        cases hcu : customer.userId with
        | none => simp [hcu]
        | some uid =>
            simp only [hcu]
            exact webhookEvents_createPaymentMethod _ _ _
  case _ => -- payment_method.detached
    injection h with h; subst h
    rfl
  case _ => -- default
    injection h with h; subst h
    rfl

theorem getWebhookEventById_congr_events (db1 db2 : DB) (eid : String)
    (h : db1.webhookEvents = db2.webhookEvents) :
    getWebhookEventById db1 eid = getWebhookEventById db2 eid := by
  unfold getWebhookEventById
  rw [h]

theorem getWebhookEventById_store_self (db : DB) (eid t s : String)
    (p : Payload) (r : String) :
    (getWebhookEventById (storeWebhookEvent db eid t s p r) eid).isSome = true := by
  unfold getWebhookEventById storeWebhookEvent
  refine List.find?_isSome.2
    ⟨{ id := db.nextId, eventId := eid, eventType := t, source := s,
       payload := p, receivedAt := r, attempts := 1, processedAt := none,
       processingResult := none, error := none, lastAttemptAt := none },
     ?_, ?_⟩
  · simp
  · simp

theorem getWebhookEventById_mark (db : DB) (eid eid2 r : String)
    (err : Option String) (now : String) :
    (getWebhookEventById (markWebhookEventProcessed db eid2 r err now) eid).isSome
      = (getWebhookEventById db eid).isSome := by
  unfold getWebhookEventById markWebhookEventProcessed
  dsimp only
  apply find?_patchFirst_isSome
  intro x
  rfl

theorem webhookEventId_of_truthy (p : Payload) (h : strTruthy p.id = true)
    (nMs : Nat) : webhookEventId p nMs = p.id.getD "" := by
  unfold webhookEventId
  cases hp : p.id with
  | none => rw [hp] at h; cases h
  | some s =>
      rw [hp] at h
      unfold strTruthy at h
      simp only [Bool.not_eq_true'] at h
      simp [h]

theorem handler_dedup (verify : Payload → String → String → Bool)
    (sec : String) (req : Request) (now : String) (nowMs : Nat) (db0 : DB)
    (hsig : (req.signature == "") = false)
    (hver : verify req.payload req.signature sec = true)
    (h0 : (getWebhookEventById db0 (webhookEventId req.payload nowMs)).isSome = true) :
    handlePolarWebhook verify (some sec) req now nowMs db0 = (db0, 200) := by
  obtain ⟨e, he⟩ := Option.isSome_iff_exists.1 h0
  simp [handlePolarWebhook, hsig, hver, he]

theorem handler_records (verify : Payload → String → String → Bool)
    (sec : String) (req : Request) (now : String) (nowMs : Nat) (db : DB)
    (hsig : (req.signature == "") = false)
    (hver : verify req.payload req.signature sec = true)
    (hn : getWebhookEventById db (webhookEventId req.payload nowMs) = none) :
    (getWebhookEventById
        (handlePolarWebhook verify (some sec) req now nowMs db).1
        (webhookEventId req.payload nowMs)).isSome = true := by
  cases hp : processWebhookEvent
      (storeWebhookEvent db (webhookEventId req.payload nowMs)
        req.payload.type "polar" req.payload now)
      req.payload now with
  | ok db2 =>
      have hrun : handlePolarWebhook verify (some sec) req now nowMs db =
          (markWebhookEventProcessed db2 (webhookEventId req.payload nowMs)
            "success" none now, 200) := by
        simp [handlePolarWebhook, hsig, hver, hn, hp]
      rw [hrun]
      dsimp only
      rw [getWebhookEventById_mark,
          getWebhookEventById_congr_events _ _ _
            (webhookEvents_processWebhookEvent _ _ _ _ hp)]
      exact getWebhookEventById_store_self _ _ _ _ _ _
  | error msg =>
      have hrun : handlePolarWebhook verify (some sec) req now nowMs db =
          (markWebhookEventProcessed
            (storeWebhookEvent db (webhookEventId req.payload nowMs)
              req.payload.type "polar" req.payload now)
            (webhookEventId req.payload nowMs) "error" (some msg) now, 500) := by
        simp [handlePolarWebhook, hsig, hver, hn, hp]
      rw [hrun]
      dsimp only
      rw [getWebhookEventById_mark]
      exact getWebhookEventById_store_self _ _ _ _ _ _

/-- C1: a delivery whose external event id is already recorded in the event
store is acknowledged with 200 and performs no store or mutator write at
all; hence delivering the same payload twice leaves the state after the
first delivery untouched (exactly one mutator side effect), the second
response is 200, and when the first dispatch succeeds the first response
is 200 as well. -/
theorem C1_webhook_idempotency
    (verify : Payload → String → String → Bool) (sec : String) (req : Request)
    (now1 now2 : String) (nowMs1 nowMs2 : Nat) (db : DB)
    (hsig : (req.signature == "") = false)
    (hver : verify req.payload req.signature sec = true)
    (hid : strTruthy req.payload.id = true) :
    (∀ db0 : DB,
      (getWebhookEventById db0 (webhookEventId req.payload nowMs2)).isSome = true →
      handlePolarWebhook verify (some sec) req now2 nowMs2 db0 = (db0, 200)) ∧
    ((getWebhookEventById db (webhookEventId req.payload nowMs1)).isSome = false →
      handlePolarWebhook verify (some sec) req now2 nowMs2
          (handlePolarWebhook verify (some sec) req now1 nowMs1 db).1 =
        ((handlePolarWebhook verify (some sec) req now1 nowMs1 db).1, 200)) ∧
    ((getWebhookEventById db (webhookEventId req.payload nowMs1)).isSome = false →
      exOk (processWebhookEvent
        (storeWebhookEvent db (webhookEventId req.payload nowMs1)
          req.payload.type "polar" req.payload now1)
        req.payload now1) = true →
      (handlePolarWebhook verify (some sec) req now1 nowMs1 db).2 = 200) := by
  refine ⟨fun db0 h0 => handler_dedup verify sec req now2 nowMs2 db0 hsig hver h0,
    ?_, ?_⟩
  · intro hnone
    have hn : getWebhookEventById db (webhookEventId req.payload nowMs1) = none := by
      cases h : getWebhookEventById db (webhookEventId req.payload nowMs1) with
      | none => rfl
      | some e => rw [h] at hnone; simp at hnone
    have hrec := handler_records verify sec req now1 nowMs1 db hsig hver hn
    apply handler_dedup verify sec req now2 nowMs2 _ hsig hver
    rw [webhookEventId_of_truthy req.payload hid nowMs2]
    rw [webhookEventId_of_truthy req.payload hid nowMs1] at hrec
    exact hrec
  · intro hnone hok
    have hn : getWebhookEventById db (webhookEventId req.payload nowMs1) = none := by
      cases h : getWebhookEventById db (webhookEventId req.payload nowMs1) with
      | none => rfl
      | some e => rw [h] at hnone; simp at hnone
    cases hp : processWebhookEvent
        (storeWebhookEvent db (webhookEventId req.payload nowMs1)
          req.payload.type "polar" req.payload now1)
        req.payload now1 with
    | ok db2 => simp [handlePolarWebhook, hsig, hver, hn, hp]
    | error msg => rw [hp] at hok; cases hok

theorem C1_webhook_idempotency_witness :
    handlePolarWebhook c1Verify (some "whsec") c1Req "t2" 222
        (handlePolarWebhook c1Verify (some "whsec") c1Req "t1" 111 DB.empty).1 =
      ((handlePolarWebhook c1Verify (some "whsec") c1Req "t1" 111 DB.empty).1, 200) ∧
    (handlePolarWebhook c1Verify (some "whsec") c1Req "t1" 111 DB.empty).2 = 200 :=
  ⟨(C1_webhook_idempotency c1Verify "whsec" c1Req "t1" "t2" 111 222 DB.empty
      rfl rfl rfl).2.1 (by decide),
   (C1_webhook_idempotency c1Verify "whsec" c1Req "t1" "t2" 111 222 DB.empty
      rfl rfl rfl).2.2 (by decide) (by decide)⟩

/-- C2 (amended): a POST with no signature header writes nothing anywhere:
the webhooks.ts dispatcher answers 401, while the polarWebhook.ts handler
actually routed at POST /polar/webhook answers 400. -/
theorem C2_missing_signature (verify : Payload → String → String → Bool)
    (secret : Option String) (req : Request) (now : String) (nowMs : Nat)
    (db : DB) (h : req.signature = "") :
    handlePolarWebhook verify secret req now nowMs db = (db, 401) ∧
    polarWebhookHandler secret req db = (db, 400) := by
  constructor
  · simp [handlePolarWebhook, h]
  · simp [polarWebhookHandler, h]

/-- C2 counterexample: at the routed payment-processor webhook endpoint a
missing signature header is answered with status 400, not a 401-equivalent
as the claim states. -/
theorem C2_counterexample :
    polarWebhookHandler (some "whsec") c2Req DB.empty = (DB.empty, 400) ∧
    (400 : Nat) ≠ 401 := by
  constructor
  · rfl
  · decide

theorem C2_missing_signature_witness :
    handlePolarWebhook c1Verify (some "whsec") c2Req "t1" 111 DB.empty =
      (DB.empty, 401) ∧
    polarWebhookHandler (some "whsec") c2Req DB.empty = (DB.empty, 400) :=
  C2_missing_signature c1Verify (some "whsec") c2Req "t1" 111 DB.empty rfl

/-! ### Upsert characterizations and the C6 and C7 claims -/

theorem find?_append_none (p : α → Bool) (l1 l2 : List α)
    (h : l1.find? p = none) : (l1 ++ l2).find? p = l2.find? p := by
  induction l1 with
  | nil => rfl
  | cons x xs ih =>
      rw [List.find?_cons] at h
      cases hp : p x with
      | true => rw [hp] at h; cases h
      | false =>
          rw [hp] at h
          rw [List.cons_append, List.find?_cons, hp]
          exact ih h

/-- The subscription webhook patch, observed through the external-id lookup:
the patched row is exactly applySubUpdates of the previous row. -/
theorem getSubscriptionByPolarId_update (db : DB) (pid : String)
    (u : SubUpdates) (now : String) :
    getSubscriptionByPolarId ((updateSubscriptionFromWebhook db pid u now).1) pid
      = (getSubscriptionByPolarId db pid).map (fun s => applySubUpdates s u now) := by
  cases hs : getSubscriptionByPolarId db pid with
  | none => simp [updateSubscriptionFromWebhook, hs]
  | some sub =>
      unfold updateSubscriptionFromWebhook
      rw [hs]
      unfold getSubscriptionByPolarId
      dsimp only
      rw [find?_patchFirst_same (fun s => s.polarSubscriptionId == pid)
          (fun s => applySubUpdates s u now) (fun x => rfl) db.subscriptions]
      unfold getSubscriptionByPolarId at hs
      rw [hs]

theorem applySubUpdates_metadata (s : Subscription) (u : SubUpdates)
    (now : String) :
    (applySubUpdates s u now).metadata =
      match u.metadata with
      | some m => jsSpread s.metadata m
      | none => s.metadata := rfl

theorem applySubUpdates_idem (s : Subscription) (u : SubUpdates)
    (now1 now2 : String) :
    applySubUpdates (applySubUpdates s u now1) u now2 =
      applySubUpdates s u now2 := by
  unfold applySubUpdates
  dsimp only
  simp only [Subscription.mk.injEq]
  refine ⟨trivial, trivial, trivial, trivial, trivial, trivial, trivial,
    ?_, ?_, ?_, ?_, ?_, ?_, trivial, trivial, ?_, trivial, trivial, trivial⟩
  · cases hst : u.status with
    | none => rfl
    | some st => by_cases he : (st == "") = true <;> simp [he]
  · by_cases h : strTruthy u.currentPeriodStart = true <;> simp [h]
  · by_cases h : strTruthy u.currentPeriodEnd = true <;> simp [h]
  · cases hc : u.cancelAtPeriodEnd <;> simp [hc]
  · by_cases h : strTruthy u.canceledAt = true <;> simp [h]
  · by_cases h : strTruthy u.endedAt = true <;> simp [h]
  · cases hm : u.metadata with
    | none => rfl
    | some m => simp [hm, jsSpread_idem]

theorem updateSubscriptionFromWebhook_collapse (db : DB) (pid : String)
    (u : SubUpdates) (now1 now2 : String) :
    (updateSubscriptionFromWebhook
        ((updateSubscriptionFromWebhook db pid u now1).1) pid u now2).1 =
      (updateSubscriptionFromWebhook db pid u now2).1 := by
  cases hs : getSubscriptionByPolarId db pid with
  | none => simp [updateSubscriptionFromWebhook, hs]
  | some sub =>
      have hlook := getSubscriptionByPolarId_update db pid u now1
      rw [hs] at hlook
      have h1 : (updateSubscriptionFromWebhook db pid u now1).1 =
          { db with subscriptions :=
                      patchFirst (fun s => s.polarSubscriptionId == pid)
                        (fun s => applySubUpdates s u now1)
                        db.subscriptions } := by
        unfold updateSubscriptionFromWebhook
        rw [hs]
      have h2 : (updateSubscriptionFromWebhook db pid u now2).1 =
          { db with subscriptions :=
                      patchFirst (fun s => s.polarSubscriptionId == pid)
                        (fun s => applySubUpdates s u now2)
                        db.subscriptions } := by
        unfold updateSubscriptionFromWebhook
        rw [hs]
      have hC : (updateSubscriptionFromWebhook
          ((updateSubscriptionFromWebhook db pid u now1).1) pid u now2).1 =
          { (updateSubscriptionFromWebhook db pid u now1).1 with
            subscriptions :=
              patchFirst (fun s => s.polarSubscriptionId == pid)
                (fun s => applySubUpdates s u now2)
                ((updateSubscriptionFromWebhook db pid u now1).1).subscriptions } := by
        generalize hgen : (updateSubscriptionFromWebhook db pid u now1).1 = db1 at hlook ⊢
        unfold updateSubscriptionFromWebhook
        rw [hlook]
        simp
      rw [hC, h1]
      dsimp only
      rw [patchFirst_comp (fun s => s.polarSubscriptionId == pid)
            (fun s => applySubUpdates s u now1)
            (fun s => applySubUpdates s u now2)
            db.subscriptions (fun x hx => hx)
            (fun x _ => applySubUpdates_idem x u now1 now2),
          h2]

theorem completeCheckoutSession_merge (db : DB) (pcid : String)
    (compAt : Option String) (md : Metadata) (now : String)
    (session : CheckoutSession) (k : String)
    (hfind : db.checkoutSessions.find? (fun c => c.polarCheckoutId == pcid) =
      some session)
    (hst : (session.status == "completed") = false) :
    ((completeCheckoutSession db pcid compAt (some md) now).1.checkoutSessions.find?
        (fun c => c.polarCheckoutId == pcid)).map (fun c => metaLookup c.metadata k)
      = some (match metaLookup md k with
              | some v => some v
              | none => metaLookup session.metadata k) := by
  unfold completeCheckoutSession
  rw [hfind]
  dsimp only
  rw [hst]
  simp only [Bool.false_eq_true, if_false]
  rw [find?_patchFirst_same (fun c => c.polarCheckoutId == pcid)
      (fun cs => { cs with status := "completed",
                           completedAt := some (strOr compAt now),
                           metadata := jsSpread cs.metadata ((some md).getD []) })
      (fun x => rfl) db.checkoutSessions]
  rw [hfind]
  dsimp only [Option.map]
  rw [metaLookup_jsSpread]
  rfl

theorem createCustomerFromWebhook_replaces (db : DB) (pc : PolarCustomerArg)
    (now : String) :
    ((getCustomerByPolarId (createCustomerFromWebhook db pc now).2 pc.id).map
      (fun c => c.metadata)) = some (pc.metadata.getD []) := by
  unfold createCustomerFromWebhook
  cases hc : getCustomerByPolarId db pc.id with
  | some existing =>
      unfold getCustomerByPolarId
      dsimp only
      rw [find?_patchFirst_same (fun c => c.polarCustomerId == pc.id)
          (fun c => { c with email := pc.email,
                             metadata := pc.metadata.getD [],
                             lastSyncedAt := some now })
          (fun x => rfl) db.customers]
      unfold getCustomerByPolarId at hc
      rw [hc]
      rfl
  | none =>
      unfold getCustomerByPolarId
      dsimp only
      unfold getCustomerByPolarId at hc
      rw [find?_append_none _ _ _ hc]
      simp

theorem createInvoice_drops_metadata (db : DB) (a : CreateInvoiceArgs)
    (now : String) (cust : Customer) (inv : Invoice)
    (hcust : getCustomerById db a.customerId = some cust)
    (hfind : db.invoices.find? (fun i => i.polarInvoiceId == a.polarInvoiceId) =
      some inv) :
    ((createInvoice db a now).1.invoices.find?
        (fun i => i.polarInvoiceId == a.polarInvoiceId)).map (fun i => i.metadata)
      = some inv.metadata := by
  unfold createInvoice
  rw [hcust, hfind]
  dsimp only
  rw [find?_patchFirst_same (fun i => i.polarInvoiceId == a.polarInvoiceId)
      (fun i => { i with status := a.status, amountDueCents := a.amountDue })
      (fun x => rfl) db.invoices]
  rw [hfind]
  rfl

theorem createPaymentMethod_noop (db : DB) (a : CreatePaymentMethodArgs)
    (now : String) (e : PaymentMethod)
    (hfind : db.paymentMethods.find?
      (fun pm => pm.polarPaymentMethodId == a.polarPaymentMethodId) = some e) :
    createPaymentMethod db a now = (db, e.id) := by
  unfold createPaymentMethod
  rw [hfind]

/-- C6 counterexample: the Customer upsert, patching a record whose metadata
holds b = 2 with incoming metadata a = 1, leaves metadata holding only
a = 1: the key b is gone, so the mutator replaces rather than merges. -/
theorem C6_counterexample :
    ((getCustomerByPolarId (createCustomerFromWebhook c6DB c6Arg "t1").2
        "cus_1").map (fun c => c.metadata)) = some [("a", MVal.num 1)] ∧
    ((getCustomerByPolarId (createCustomerFromWebhook c6DB c6Arg "t1").2
        "cus_1").map (fun c => metaLookup c.metadata "b")) = some none := by
  constructor
  · rfl
  · rfl

/-- C6 (amended): the Subscription webhook patch and the CheckoutSession
completion merge incoming metadata into the existing object, while the
Customer upsert replaces metadata with the incoming value, the Invoice
upsert drops incoming metadata on patch, and the PaymentMethod upsert does
not patch an existing row at all. -/
theorem C6_metadata_policy :
    (∀ (s : Subscription) (u : SubUpdates) (now : String) (m : Metadata)
        (k : String),
      u.metadata = some m →
      metaLookup (applySubUpdates s u now).metadata k =
        match metaLookup m k with
        | some v => some v
        | none => metaLookup s.metadata k) ∧
    (∀ (db : DB) (pid : String) (u : SubUpdates) (now : String),
      getSubscriptionByPolarId ((updateSubscriptionFromWebhook db pid u now).1) pid
        = (getSubscriptionByPolarId db pid).map (fun s => applySubUpdates s u now)) ∧
    (∀ (db : DB) (pcid : String) (compAt : Option String) (md : Metadata)
        (now : String) (session : CheckoutSession) (k : String),
      db.checkoutSessions.find? (fun c => c.polarCheckoutId == pcid) =
        some session →
      (session.status == "completed") = false →
      ((completeCheckoutSession db pcid compAt (some md) now).1.checkoutSessions.find?
          (fun c => c.polarCheckoutId == pcid)).map
          (fun c => metaLookup c.metadata k)
        = some (match metaLookup md k with
                | some v => some v
                | none => metaLookup session.metadata k)) ∧
    (∀ (db : DB) (pc : PolarCustomerArg) (now : String),
      ((getCustomerByPolarId (createCustomerFromWebhook db pc now).2 pc.id).map
        (fun c => c.metadata)) = some (pc.metadata.getD [])) ∧
    (∀ (db : DB) (a : CreateInvoiceArgs) (now : String) (cust : Customer)
        (inv : Invoice),
      getCustomerById db a.customerId = some cust →
      db.invoices.find? (fun i => i.polarInvoiceId == a.polarInvoiceId) =
        some inv →
      ((createInvoice db a now).1.invoices.find?
          (fun i => i.polarInvoiceId == a.polarInvoiceId)).map
          (fun i => i.metadata) = some inv.metadata) ∧
    (∀ (db : DB) (a : CreatePaymentMethodArgs) (now : String)
        (e : PaymentMethod),
      db.paymentMethods.find?
        (fun pm => pm.polarPaymentMethodId == a.polarPaymentMethodId) = some e →
      createPaymentMethod db a now = (db, e.id)) := by
  refine ⟨?_, ?_, ?_, ?_, ?_, ?_⟩
  · intro s u now m k hm
    rw [applySubUpdates_metadata, hm]
    exact metaLookup_jsSpread s.metadata m k
  · intro db pid u now
    exact getSubscriptionByPolarId_update db pid u now
  · intro db pcid compAt md now session k hfind hst
    exact completeCheckoutSession_merge db pcid compAt md now session k hfind hst
  · intro db pc now
    exact createCustomerFromWebhook_replaces db pc now
  · intro db a now cust inv hcust hfind
    exact createInvoice_drops_metadata db a now cust inv hcust hfind
  · intro db a now e hfind
    exact createPaymentMethod_noop db a now e hfind

theorem C6_metadata_policy_witness :
    metaLookup (applySubUpdates c7Sub c7U "t1").metadata "a" =
      some (MVal.num 1) ∧
    metaLookup (applySubUpdates c7Sub c7U "t1").metadata "b" =
      some (MVal.num 2) ∧
    createPaymentMethod c6PMdb c6PMArgs "t1" = (c6PMdb, 5) := by
  refine ⟨?_, ?_, ?_⟩
  · rw [C6_metadata_policy.1 c7Sub c7U "t1" [("a", MVal.num 1)] "a" rfl]
    decide
  · rw [C6_metadata_policy.1 c7Sub c7U "t1" [("a", MVal.num 1)] "b" rfl]
    decide
  · exact C6_metadata_policy.2.2.2.2.2 c6PMdb c6PMArgs "t1" c6PM rfl

/-- C7: applying the same subscription.updated notification N times (N at
least 1, at a fixed simulated time) leaves the store identical to applying
it once; even at different times a second application collapses to the
last one; the update patches in place (the subscription count never
changes) and the creation path patches rather than inserts when the
external id already exists. -/
theorem C7_upsert_convergence :
    (∀ (db : DB) (pid : String) (u : SubUpdates) (now : String) (n : Nat),
      1 ≤ n →
      (fun d => (updateSubscriptionFromWebhook d pid u now).1)^[n] db =
        (updateSubscriptionFromWebhook db pid u now).1) ∧
    (∀ (db : DB) (pid : String) (u : SubUpdates) (now1 now2 : String),
      (updateSubscriptionFromWebhook
          ((updateSubscriptionFromWebhook db pid u now1).1) pid u now2).1 =
        (updateSubscriptionFromWebhook db pid u now2).1) ∧
    (∀ (db : DB) (pid : String) (u : SubUpdates) (now : String),
      ((updateSubscriptionFromWebhook db pid u now).1).subscriptions.length =
        db.subscriptions.length) ∧
    (∀ (db : DB) (a : CreateSubscriptionArgs) (now : String) (e : Subscription),
      getSubscriptionByPolarId db a.polarSubscriptionId = some e →
      ∃ r, createSubscription db a now = .ok r ∧
        r.2.subscriptions.length = db.subscriptions.length) := by
  refine ⟨?_, ?_, ?_, ?_⟩
  · intro db pid u now n hn
    induction n with
    | zero => cases hn
    | succ m ih =>
        by_cases hm : 1 ≤ m
        · rw [Function.iterate_succ_apply', ih hm]
          exact updateSubscriptionFromWebhook_collapse db pid u now now
        · have hm0 : m = 0 := by omega
          subst hm0
          rw [Function.iterate_one]
  · intro db pid u now1 now2
    exact updateSubscriptionFromWebhook_collapse db pid u now1 now2
  · intro db pid u now
    unfold updateSubscriptionFromWebhook
    cases hs : getSubscriptionByPolarId db pid with
    | none => rfl
    | some sub =>
        dsimp only
        exact patchFirst_length _ _ _
  · intro db a now e hfind
    unfold createSubscription
    rw [hfind]
    refine ⟨_, rfl, ?_⟩
    dsimp only
    exact patchFirst_length _ _ _

theorem C7_upsert_convergence_witness :
    (fun d => (updateSubscriptionFromWebhook d "sub_1" c7U "t9").1)^[3] c7DB =
      (updateSubscriptionFromWebhook c7DB "sub_1" c7U "t9").1 ∧
    (∃ r, createSubscription c7DB c7Args "t9" = .ok r ∧
      r.2.subscriptions.length = c7DB.subscriptions.length) :=
  ⟨C7_upsert_convergence.1 c7DB "sub_1" c7U "t9" 3 (by decide),
   C7_upsert_convergence.2.2.2 c7DB c7Args "t9" c7Sub rfl⟩

/-! ### Reconciliation lemmas and the C4 and C8 claims -/

theorem reconcileSubsScan_calls (getSub : String → Except String PolarSubView)
    (l : List Subscription) :
    (reconcileSubsScan getSub l).2 =
      (l.filter (fun s => !(s.polarSubscriptionId.startsWith "manual_"))).map
        (fun s => s.polarSubscriptionId) := by
  induction l with
  | nil => rfl
  | cons sub rest ih =>
      simp only [reconcileSubsScan]
      by_cases hm : (sub.polarSubscriptionId.startsWith "manual_") = true
      · rw [if_pos hm, List.filter_cons]
        simp only [hm, Bool.not_true, Bool.false_eq_true, if_false]
        exact ih
      · rw [if_neg hm, List.filter_cons]
        have hmf : (!(sub.polarSubscriptionId.startsWith "manual_")) = true := by
          rw [Bool.eq_false_iff.mpr hm]
          rfl
        rw [if_pos hmf, List.map_cons]
        cases getSub sub.polarSubscriptionId with
        | ok v => exact congrArg (sub.polarSubscriptionId :: ·) ih
        | error e => exact congrArg (sub.polarSubscriptionId :: ·) ih

theorem mem_reconcileSubsScan_of_mem_entries
    (getSub : String → Except String PolarSubView) (l : List Subscription)
    (sub : Subscription) (v : PolarSubView) (d : Discrepancy)
    (hmem : sub ∈ l)
    (hman : (sub.polarSubscriptionId.startsWith "manual_") = false)
    (hok : getSub sub.polarSubscriptionId = .ok v)
    (hd : d ∈ subEntries sub v) :
    d ∈ (reconcileSubsScan getSub l).1 := by
  induction l with
  | nil => cases hmem
  | cons x rest ih =>
      rcases List.mem_cons.1 hmem with heq | hsub
      · subst heq
        simp only [reconcileSubsScan]
        rw [if_neg (by rw [hman]; simp)]
        rw [hok]
        exact List.mem_append_left _ hd
      · simp only [reconcileSubsScan]
        by_cases hm : (x.polarSubscriptionId.startsWith "manual_") = true
        · rw [if_pos hm]
          exact ih hsub
        · rw [if_neg hm]
          cases getSub x.polarSubscriptionId with
          | ok w => exact List.mem_append_right _ (ih hsub)
          | error e => exact List.mem_cons_of_mem _ (ih hsub)

theorem reconcileBilling_frame (getSub : String → Except String PolarSubView)
    (getCust : String → Except String PolarCustView)
    (ct : Option CheckType) (db : DB) (now : String) :
    ((reconcileBilling getSub getCust ct db now).2.1).subscriptions =
        db.subscriptions ∧
    ((reconcileBilling getSub getCust ct db now).2.1).customers =
        db.customers ∧
    ((reconcileBilling getSub getCust ct db now).2.1).invoices =
        db.invoices := by
  unfold reconcileBilling
  dsimp only
  by_cases he : ((reconcileScan getSub getCust (ct.getD .subscriptions) db).1).isEmpty = true <;>
    simp [he, logDiscrepancies]

theorem reconcileBilling_subs_result
    (getSub : String → Except String PolarSubView)
    (getCust : String → Except String PolarCustView) (db : DB) (now : String) :
    ((reconcileBilling getSub getCust (some .subscriptions) db now).1).discrepancies
        = ((reconcileSubsScan getSub (getActiveSubscriptions db)).1).take 20 ∧
    ((reconcileBilling getSub getCust (some .subscriptions) db now).1).discrepanciesFound
        = ((reconcileSubsScan getSub (getActiveSubscriptions db)).1).length ∧
    ((reconcileSubsScan getSub (getActiveSubscriptions db)).1 ≠ [] →
      ((reconcileBilling getSub getCust (some .subscriptions) db now).2.1).auditLogs
        = db.auditLogs ++
          [{ id := db.nextId, action := "reconciliation.discrepancies",
             resourceType := "subscriptions",
             count := ((reconcileSubsScan getSub (getActiveSubscriptions db)).1).length,
             discrepancies := (reconcileSubsScan getSub (getActiveSubscriptions db)).1,
             createdAt := now }]) := by
  unfold reconcileBilling reconcileScan
  dsimp only [Option.getD]
  refine ⟨rfl, rfl, ?_⟩
  intro hne
  have hie : ((reconcileSubsScan getSub (getActiveSubscriptions db)).1).isEmpty
      = false := by
    cases hds : (reconcileSubsScan getSub (getActiveSubscriptions db)).1 with
    | nil => exact absurd hds hne
    | cons a as => rfl
  rw [hie]
  simp [logDiscrepancies, CheckType.str]

/-! The circuit-breaker gating facts for the two sync jobs. -/

theorem syncAllSubscriptions_denied
    (listSubs : String → Except String (List PolarSubItem))
    (bs : Option Nat) (db : DB) (cb : CircuitBreakerState)
    (nowMs : Nat) (now : String)
    (hden : (checkCircuitBreaker nowMs cb).1 = false) :
    syncAllSubscriptions listSubs bs db cb nowMs now =
      (.skipped "Circuit breaker open" ((checkCircuitBreaker nowMs cb).2).nextRetry,
       db, (checkCircuitBreaker nowMs cb).2, []) := by
  cases hcb : checkCircuitBreaker nowMs cb with
  | mk allowed cb2 =>
      rw [hcb] at hden
      subst hden
      unfold syncAllSubscriptions
      rw [hcb]

theorem syncPendingInvoices_denied (getOrder : String → Except String Bool)
    (db : DB) (cb : CircuitBreakerState) (nowMs : Nat) (now : String)
    (hden : (checkCircuitBreaker nowMs cb).1 = false) :
    syncPendingInvoices getOrder db cb nowMs now =
      (.skipped "Circuit breaker open", db, (checkCircuitBreaker nowMs cb).2, []) := by
  cases hcb : checkCircuitBreaker nowMs cb with
  | mk allowed cb2 =>
      rw [hcb] at hden
      subst hden
      unfold syncPendingInvoices
      rw [hcb]

theorem syncAllSubscriptions_allowed_shape
    (listSubs : String → Except String (List PolarSubItem))
    (bs : Option Nat) (db : DB) (cb : CircuitBreakerState)
    (nowMs : Nat) (now : String)
    (hall : (checkCircuitBreaker nowMs cb).1 = true) :
    ∃ s f e, (syncAllSubscriptions listSubs bs db cb nowMs now).1 =
      .completed s f e := by
  cases hcb : checkCircuitBreaker nowMs cb with
  | mk allowed cb2 =>
      rw [hcb] at hall
      subst hall
      unfold syncAllSubscriptions
      rw [hcb]
      exact ⟨_, _, _, rfl⟩

theorem syncPendingInvoices_allowed_shape
    (getOrder : String → Except String Bool) (db : DB)
    (cb : CircuitBreakerState) (nowMs : Nat) (now : String)
    (hall : (checkCircuitBreaker nowMs cb).1 = true) :
    ∃ u f, (syncPendingInvoices getOrder db cb nowMs now).1 =
      .completed u f := by
  cases hcb : checkCircuitBreaker nowMs cb with
  | mk allowed cb2 =>
      rw [hcb] at hall
      subst hall
      unfold syncPendingInvoices
      rw [hcb]
      exact ⟨_, _, rfl⟩

/-- C4 counterexample: with the circuit breaker open and denying (now = 500
is before nextRetry = 1000), the reconcile/diff operation still calls the
payment processor for the local active subscription: it is not gated by the
breaker and returns no skipped status. -/
theorem C4_counterexample :
    (checkCircuitBreaker 500 c4CB).1 = false ∧
    (reconcileBilling c4GetSub c4GetCust (some CheckType.subscriptions)
        c4DB "t1").2.2 = ["sub_1"] ∧
    (["sub_1"] : List String) ≠ ([] : List String) := by
  refine ⟨by decide, by decide, by decide⟩

/-- C4 (amended): subscription sync and invoice sync are each gated by the
circuit breaker: a denied attempt returns status skipped, leaves the store
untouched and performs no processor call, and an allowed attempt always
returns status completed (so skipped is returned only on denial); the
reconcile/diff operation is not gated at all: it makes exactly one
processor call per non-manual active local subscription regardless of any
breaker state. -/
theorem C4_breaker_gating :
    (∀ (listSubs : String → Except String (List PolarSubItem))
        (bs : Option Nat) (db : DB) (cb : CircuitBreakerState)
        (nowMs : Nat) (now : String),
      (checkCircuitBreaker nowMs cb).1 = false →
      syncAllSubscriptions listSubs bs db cb nowMs now =
        (.skipped "Circuit breaker open"
          ((checkCircuitBreaker nowMs cb).2).nextRetry, db,
         (checkCircuitBreaker nowMs cb).2, [])) ∧
    (∀ (getOrder : String → Except String Bool) (db : DB)
        (cb : CircuitBreakerState) (nowMs : Nat) (now : String),
      (checkCircuitBreaker nowMs cb).1 = false →
      syncPendingInvoices getOrder db cb nowMs now =
        (.skipped "Circuit breaker open", db,
         (checkCircuitBreaker nowMs cb).2, [])) ∧
    (∀ (listSubs : String → Except String (List PolarSubItem))
        (bs : Option Nat) (db : DB) (cb : CircuitBreakerState)
        (nowMs : Nat) (now : String),
      (checkCircuitBreaker nowMs cb).1 = true →
      ((syncAllSubscriptions listSubs bs db cb nowMs now).1).statusStr =
        "completed") ∧
    (∀ (getOrder : String → Except String Bool) (db : DB)
        (cb : CircuitBreakerState) (nowMs : Nat) (now : String),
      (checkCircuitBreaker nowMs cb).1 = true →
      ((syncPendingInvoices getOrder db cb nowMs now).1).statusStr =
        "completed") ∧
    (∀ (getSub : String → Except String PolarSubView)
        (getCust : String → Except String PolarCustView) (db : DB)
        (now : String),
      (reconcileBilling getSub getCust (some .subscriptions) db now).2.2 =
        ((getActiveSubscriptions db).filter
          (fun s => !(s.polarSubscriptionId.startsWith "manual_"))).map
          (fun s => s.polarSubscriptionId)) := by
  refine ⟨?_, ?_, ?_, ?_, ?_⟩
  · intro listSubs bs db cb nowMs now hden
    exact syncAllSubscriptions_denied listSubs bs db cb nowMs now hden
  · intro getOrder db cb nowMs now hden
    exact syncPendingInvoices_denied getOrder db cb nowMs now hden
  · intro listSubs bs db cb nowMs now hall
    obtain ⟨s, f, e, heq⟩ :=
      syncAllSubscriptions_allowed_shape listSubs bs db cb nowMs now hall
    rw [heq]
    rfl
  · intro getOrder db cb nowMs now hall
    obtain ⟨u, f, heq⟩ :=
      syncPendingInvoices_allowed_shape getOrder db cb nowMs now hall
    rw [heq]
    rfl
  · intro getSub getCust db now
    unfold reconcileBilling reconcileScan
    dsimp only [Option.getD]
    exact reconcileSubsScan_calls getSub (getActiveSubscriptions db)

theorem C4_breaker_gating_witness :
    syncAllSubscriptions (fun _ => .error "down") none c4DB c4CB 500 "t1" =
      (.skipped "Circuit breaker open" (some 1000), c4DB, c4CB, []) ∧
    syncPendingInvoices (fun _ => .ok true) c4DB c4CB 500 "t1" =
      (.skipped "Circuit breaker open", c4DB, c4CB, []) :=
  ⟨(C4_breaker_gating.1 (fun _ => .error "down") none c4DB c4CB 500 "t1"
      (by decide)).trans (by decide),
   (C4_breaker_gating.2.1 (fun _ => .ok true) c4DB c4CB 500 "t1"
      (by decide)).trans (by decide)⟩

/-- C8 counterexample: with eleven active subscriptions each mismatching in
both status and cancel flag, reconcile finds 22 discrepancies but returns
only the first 20: the eleventh subscription has a detected status
mismatch that appears in the persisted audit log yet is absent from the
returned discrepancy list. -/
theorem C8_counterexample :
    ((reconcileBilling c8GetSub c4GetCust (some CheckType.subscriptions)
        c8DB "t1").1).discrepanciesFound = 22 ∧
    ((reconcileBilling c8GetSub c4GetCust (some CheckType.subscriptions)
        c8DB "t1").1).discrepancies.length = 20 ∧
    ((reconcileBilling c8GetSub c4GetCust (some CheckType.subscriptions)
        c8DB "t1").1).discrepancies.all (fun d => d.localId != 11) = true ∧
    ((reconcileBilling c8GetSub c4GetCust (some CheckType.subscriptions)
        c8DB "t1").2.1).auditLogs.any
      (fun lg => lg.discrepancies.any
        (fun d => d.localId == 11 && d.dtype == "status_mismatch")) = true ∧
    c8GetSub "sub_11" = .ok { status := "past_due",
                              cancel_at_period_end := true } := by
  refine ⟨by decide, by decide, by decide, by decide, rfl⟩

/-- C8 (amended): reconcile/diff is detect-only: the local subscription
(and customer and invoice) records are never modified; every status or
cancel-flag mismatch of a compared (non-manual, active) subscription is
appended to the discrepancy list; the full list is persisted to the audit
log, while the returned list is truncated to the first 20 entries (with
discrepanciesFound carrying the full count). -/
theorem C8_reconcile_detect_only :
    (∀ (getSub : String → Except String PolarSubView)
        (getCust : String → Except String PolarCustView)
        (ct : Option CheckType) (db : DB) (now : String),
      ((reconcileBilling getSub getCust ct db now).2.1).subscriptions =
          db.subscriptions ∧
      ((reconcileBilling getSub getCust ct db now).2.1).customers =
          db.customers ∧
      ((reconcileBilling getSub getCust ct db now).2.1).invoices =
          db.invoices) ∧
    (∀ (getSub : String → Except String PolarSubView) (db : DB)
        (sub : Subscription) (v : PolarSubView),
      sub ∈ getActiveSubscriptions db →
      (sub.polarSubscriptionId.startsWith "manual_") = false →
      getSub sub.polarSubscriptionId = .ok v →
      v.status ≠ subStatusStr sub.status →
      ∃ d ∈ (reconcileSubsScan getSub (getActiveSubscriptions db)).1,
        d.dtype = "status_mismatch" ∧ d.localId = sub.id) ∧
    (∀ (getSub : String → Except String PolarSubView) (db : DB)
        (sub : Subscription) (v : PolarSubView),
      sub ∈ getActiveSubscriptions db →
      (sub.polarSubscriptionId.startsWith "manual_") = false →
      getSub sub.polarSubscriptionId = .ok v →
      sub.cancelAtPeriodEnd ≠ some v.cancel_at_period_end →
      ∃ d ∈ (reconcileSubsScan getSub (getActiveSubscriptions db)).1,
        d.dtype = "cancellation_mismatch" ∧ d.localId = sub.id) ∧
    (∀ (getSub : String → Except String PolarSubView)
        (getCust : String → Except String PolarCustView) (db : DB)
        (now : String),
      ((reconcileBilling getSub getCust (some .subscriptions) db now).1).discrepancies
          = ((reconcileSubsScan getSub (getActiveSubscriptions db)).1).take 20 ∧
      ((reconcileBilling getSub getCust (some .subscriptions) db now).1).discrepanciesFound
          = ((reconcileSubsScan getSub (getActiveSubscriptions db)).1).length ∧
      ((reconcileSubsScan getSub (getActiveSubscriptions db)).1 ≠ [] →
        ((reconcileBilling getSub getCust (some .subscriptions) db now).2.1).auditLogs
          = db.auditLogs ++
            [{ id := db.nextId, action := "reconciliation.discrepancies",
               resourceType := "subscriptions",
               count := ((reconcileSubsScan getSub (getActiveSubscriptions db)).1).length,
               discrepancies := (reconcileSubsScan getSub (getActiveSubscriptions db)).1,
               createdAt := now }])) := by
  refine ⟨?_, ?_, ?_, ?_⟩
  · intro getSub getCust ct db now
    exact reconcileBilling_frame getSub getCust ct db now
  · intro getSub db sub v hmem hman hok hmis
    refine ⟨{ dtype := "status_mismatch", localId := sub.id,
              polarId := sub.polarSubscriptionId,
              issue := "Status mismatch: local=" ++ subStatusStr sub.status ++
                ", polar=" ++ v.status,
              localData := some (subStatusStr sub.status),
              polarData := some v.status },
      mem_reconcileSubsScan_of_mem_entries getSub _ sub v _ hmem hman hok ?_,
      rfl, rfl⟩
    unfold subEntries
    rw [if_pos hmis]
    exact List.mem_append_left _ (List.mem_singleton_self _)
  · intro getSub db sub v hmem hman hok hmis
    refine ⟨{ dtype := "cancellation_mismatch", localId := sub.id,
              polarId := sub.polarSubscriptionId,
              issue := "Cancel at period end mismatch",
              localData := some (optBoolStr sub.cancelAtPeriodEnd),
              polarData := some (boolStr v.cancel_at_period_end) },
      mem_reconcileSubsScan_of_mem_entries getSub _ sub v _ hmem hman hok ?_,
      rfl, rfl⟩
    unfold subEntries
    rw [if_pos hmis]
    exact List.mem_append_right _ (List.mem_singleton_self _)
  · intro getSub getCust db now
    exact reconcileBilling_subs_result getSub getCust db now

theorem C8_reconcile_detect_only_witness :
    (∃ d ∈ (reconcileSubsScan c4GetSub (getActiveSubscriptions c4DB)).1,
      d.dtype = "status_mismatch" ∧ d.localId = 1) ∧
    ((reconcileBilling c4GetSub c4GetCust (some CheckType.subscriptions)
        c4DB "t1").2.1).subscriptions = c4DB.subscriptions :=
  ⟨C8_reconcile_detect_only.2.1 c4GetSub c4DB c4Sub
      { status := "past_due", cancel_at_period_end := false }
      (by decide) (by decide) rfl (by decide),
   (C8_reconcile_detect_only.1 c4GetSub c4GetCust
      (some CheckType.subscriptions) c4DB "t1").1⟩

theorem mem_allIds (groups : List (String × List UsageEvent))
    (g : String × List UsageEvent) (x : UsageEvent)
    (hg : g ∈ groups) (hx : x ∈ g.2) : x.id ∈ allIds groups := by
  unfold allIds
  rw [List.mem_flatten]
  exact ⟨g.2.map (fun y => y.id), List.mem_map.2 ⟨g, hg, rfl⟩,
    List.mem_map.2 ⟨x, hx, rfl⟩⟩

theorem addToGroups_mem (cid : String) (e : UsageEvent)
    (gs : List (String × List UsageEvent)) (g : String × List UsageEvent)
    (hg : g ∈ addToGroups cid e gs) (x : UsageEvent) (hx : x ∈ g.2) :
    (∃ g0 ∈ gs, x ∈ g0.2) ∨ x = e := by
  induction gs with
  | nil =>
      simp only [addToGroups, List.mem_singleton] at hg
      subst hg
      simp only [List.mem_singleton] at hx
      exact Or.inr hx
  | cons p t ih =>
      obtain ⟨k, es⟩ := p
      simp only [addToGroups] at hg
      by_cases hk : (k == cid) = true
      · rw [if_pos hk] at hg
        rcases List.mem_cons.1 hg with heq | hgt
        · subst heq
          rcases List.mem_append.1 hx with hxe | hxe
          · exact Or.inl ⟨(k, es), List.mem_cons_self _ _, hxe⟩
          · simp only [List.mem_singleton] at hxe
            exact Or.inr hxe
        · exact Or.inl ⟨g, List.mem_cons_of_mem _ hgt, hx⟩
      · rw [if_neg hk] at hg
        rcases List.mem_cons.1 hg with heq | hgt
        · subst heq
          exact Or.inl ⟨(k, es), List.mem_cons_self _ _, hx⟩
        · rcases ih hgt with ⟨g0, hg0, hxg0⟩ | hxe
          · exact Or.inl ⟨g0, List.mem_cons_of_mem _ hg0, hxg0⟩
          · exact Or.inr hxe

theorem groupFold_mem (l : List UsageEvent) :
    ∀ (gs : List (String × List UsageEvent)),
    ∀ g ∈ l.foldl
      (fun gs e =>
        if strTruthy e.polarCustomerId then
          addToGroups (e.polarCustomerId.getD "") e gs
        else gs)
      gs,
    ∀ x ∈ g.2,
      (∃ g0 ∈ gs, x ∈ g0.2) ∨
        (x ∈ l ∧ strTruthy x.polarCustomerId = true) := by
  induction l with
  | nil =>
      intro gs g hg x hx
      exact Or.inl ⟨g, hg, hx⟩
  | cons e rest ih =>
      intro gs g hg x hx
      rw [List.foldl_cons] at hg
      by_cases he : strTruthy e.polarCustomerId = true
      · rw [if_pos he] at hg
        rcases ih _ g hg x hx with hacc | hrest
        · obtain ⟨g0, hg0, hxg0⟩ := hacc
          rcases addToGroups_mem (e.polarCustomerId.getD "") e gs g0 hg0 x hxg0
            with hold | hxe
          · exact Or.inl hold
          · subst hxe
            exact Or.inr ⟨List.mem_cons_self _ _, he⟩
        · exact Or.inr ⟨List.mem_cons_of_mem _ hrest.1, hrest.2⟩
      · rw [if_neg he] at hg
        rcases ih gs g hg x hx with hacc | hrest
        · exact Or.inl hacc
        · exact Or.inr ⟨List.mem_cons_of_mem _ hrest.1, hrest.2⟩

theorem groupByCustomer_mem (l : List UsageEvent) :
    ∀ g ∈ groupByCustomer l, ∀ x ∈ g.2,
      x ∈ l ∧ strTruthy x.polarCustomerId = true := by
  intro g hg x hx
  rcases groupFold_mem l [] g hg x hx with ⟨g0, hg0, _⟩ | h
  · cases hg0
  · exact h

theorem allIds_addToGroups (cid : String) (e : UsageEvent)
    (gs : List (String × List UsageEvent)) :
    List.Perm (allIds (addToGroups cid e gs)) (allIds gs ++ [e.id]) := by
  induction gs with
  | nil =>
      simp [addToGroups, allIds]
  | cons p t ih =>
      obtain ⟨k, es⟩ := p
      simp only [addToGroups]
      by_cases hk : (k == cid) = true
      · rw [if_pos hk]
        refine List.perm_iff_count.2 ?_
        intro a
        simp only [allIds, List.map_cons, List.flatten_cons, List.map_append,
          List.count_append, List.map_singleton, List.map_nil]
        omega
      · rw [if_neg hk]
        have ihc := List.perm_iff_count.1 ih
        refine List.perm_iff_count.2 ?_
        intro a
        have hia := ihc a
        simp only [allIds, List.map_cons, List.flatten_cons,
          List.count_append] at hia ⊢
        omega

theorem allIds_groupFold
    (l : List UsageEvent) :
    ∀ gs : List (String × List UsageEvent),
    List.Perm
      (allIds (l.foldl
        (fun gs e =>
          if strTruthy e.polarCustomerId then
            addToGroups (e.polarCustomerId.getD "") e gs
          else gs)
        gs))
      (allIds gs ++
        (l.filter (fun x => strTruthy x.polarCustomerId)).map (fun x => x.id)) := by
  induction l with
  | nil =>
      intro gs
      simp
  | cons e rest ih =>
      intro gs
      rw [List.foldl_cons, List.filter_cons]
      by_cases he : strTruthy e.polarCustomerId = true
      · rw [if_pos he, if_pos he, List.map_cons]
        refine (ih (addToGroups (e.polarCustomerId.getD "") e gs)).trans ?_
        refine List.Perm.trans
          (List.Perm.append_right _ (allIds_addToGroups _ e gs)) ?_
        rw [List.append_assoc, List.singleton_append]
      · rw [if_neg he]
        simp only [he, Bool.false_eq_true, if_false]
        exact ih gs

theorem allIds_groupByCustomer_nodup (l : List UsageEvent)
    (hnd : (l.map (fun x => x.id)).Nodup) :
    (allIds (groupByCustomer l)).Nodup := by
  have hperm := allIds_groupFold l []
  unfold groupByCustomer
  have htarget :
      ((l.filter (fun x => strTruthy x.polarCustomerId)).map (fun x => x.id)).Nodup :=
    hnd.sublist ((List.filter_sublist l).map _)
  refine (hperm.trans ?_).nodup_iff.2 htarget
  simp [allIds]

/-! Mark lemmas. -/

theorem markEventProcessed_mem_of_ne (db : UsageDB) (tid : Nat)
    (pid : Option String) (s : Bool) (err : Option String) (now : String)
    (e : UsageEvent) (hne : e.id ≠ tid) (hmem : e ∈ db.usageEvents) :
    e ∈ (markEventProcessed db tid pid s err now).usageEvents := by
  unfold markEventProcessed
  refine List.mem_map.2 ⟨e, hmem, ?_⟩
  simp [hne]

theorem markEventProcessed_mem_self (db : UsageDB) (e : UsageEvent)
    (pid : Option String) (s : Bool) (err : Option String) (now : String)
    (hmem : e ∈ db.usageEvents) :
    { e with processed := true, ingestedAt := some now,
             polarEventId := if pid.isSome then pid else e.polarEventId,
             error := if err.isSome then err else e.error }
      ∈ (markEventProcessed db e.id pid s err now).usageEvents := by
  unfold markEventProcessed
  refine List.mem_map.2 ⟨e, hmem, ?_⟩
  simp

theorem markAll_preserve (evs : List UsageEvent) (db : UsageDB)
    (pid : Option String) (s : Bool) (err : Option String) (now : String)
    (e : UsageEvent) (hmem : e ∈ db.usageEvents)
    (hne : ∀ x ∈ evs, x.id ≠ e.id) :
    e ∈ (markAll db evs pid s err now).usageEvents := by
  induction evs generalizing db with
  | nil => exact hmem
  | cons x rest ih =>
      unfold markAll
      rw [List.foldl_cons]
      exact ih _
        (markEventProcessed_mem_of_ne db x.id pid s err now e
          (fun h => hne x (List.mem_cons_self _ _) h.symm) hmem)
        (fun y hy => hne y (List.mem_cons_of_mem _ hy))

theorem markAll_marks (evs : List UsageEvent) (db : UsageDB)
    (pid : Option String) (s : Bool) (err : Option String) (now : String)
    (e : UsageEvent) (hmem : e ∈ db.usageEvents) (he : e ∈ evs)
    (hnd : (evs.map (fun x => x.id)).Nodup) :
    { e with processed := true, ingestedAt := some now,
             polarEventId := if pid.isSome then pid else e.polarEventId,
             error := if err.isSome then err else e.error }
      ∈ (markAll db evs pid s err now).usageEvents := by
  induction evs generalizing db with
  | nil => cases he
  | cons x rest ih =>
      rw [List.map_cons, List.nodup_cons] at hnd
      rcases List.mem_cons.1 he with heq | hrest
      · subst heq
        unfold markAll
        rw [List.foldl_cons]
        refine markAll_preserve rest _ pid s err now _
          (markEventProcessed_mem_self db e pid s err now hmem) ?_
        intro y hy hid
        exact hnd.1 (hid ▸ List.mem_map.2 ⟨y, hy, rfl⟩)
      · have hxe : x.id ≠ e.id := by
          intro h
          exact hnd.1 (h ▸ List.mem_map.2 ⟨e, hrest, rfl⟩)
        unfold markAll
        rw [List.foldl_cons]
        exact ih _
          (markEventProcessed_mem_of_ne db x.id pid s err now e
            (fun h => hxe h.symm) hmem)
          hrest hnd.2

theorem ingestGroups_preserve
    (ingest : String → List PolarUsageEvent → Except String IngestResp)
    (nowMs : Nat) (now : String)
    (groups : List (String × List UsageEvent)) :
    ∀ (acc : (Nat × Nat) × UsageDB) (e : UsageEvent),
    e ∈ acc.2.usageEvents →
    (∀ g ∈ groups, ∀ x ∈ g.2, x.id ≠ e.id) →
    e ∈ (ingestGroups ingest nowMs now groups acc).2.usageEvents := by
  induction groups with
  | nil =>
      intro acc e hmem _
      exact hmem
  | cons g rest ih =>
      intro acc e hmem hne
      obtain ⟨cid, evs⟩ := g
      unfold ingestGroups
      cases ingest cid (evs.map (toPolarEvent cid)) with
      | ok r =>
          exact ih _ e
            (markAll_preserve evs acc.2 _ _ _ now e hmem
              (fun x hx => hne (cid, evs) (List.mem_cons_self _ _) x hx))
            (fun g' hg' => hne g' (List.mem_cons_of_mem _ hg'))
      | error msg =>
          exact ih _ e
            (markAll_preserve evs acc.2 _ _ _ now e hmem
              (fun x hx => hne (cid, evs) (List.mem_cons_self _ _) x hx))
            (fun g' hg' => hne g' (List.mem_cons_of_mem _ hg'))

theorem markEventProcessed_ids (db : UsageDB) (tid : Nat)
    (pid : Option String) (s : Bool) (err : Option String) (now : String) :
    (markEventProcessed db tid pid s err now).usageEvents.map (fun x => x.id)
      = db.usageEvents.map (fun x => x.id) := by
  unfold markEventProcessed
  rw [List.map_map]
  refine List.map_congr_left ?_
  intro x hx
  by_cases h : (x.id == tid) = true <;> simp [Function.comp, h]

theorem markAll_ids (evs : List UsageEvent) :
    ∀ (db : UsageDB) (pid : Option String) (s : Bool) (err : Option String)
      (now : String),
    (markAll db evs pid s err now).usageEvents.map (fun x => x.id)
      = db.usageEvents.map (fun x => x.id) := by
  induction evs with
  | nil => intro db pid s err now; rfl
  | cons a as ih =>
      intro db pid s err now
      unfold markAll
      rw [List.foldl_cons]
      have h1 := ih (markEventProcessed db a.id pid s err now) pid s err now
      unfold markAll at h1
      rw [h1, markEventProcessed_ids]

theorem ingestGroups_ids
    (ingest : String → List PolarUsageEvent → Except String IngestResp)
    (nowMs : Nat) (now : String)
    (groups : List (String × List UsageEvent)) :
    ∀ (acc : (Nat × Nat) × UsageDB),
    (ingestGroups ingest nowMs now groups acc).2.usageEvents.map (fun x => x.id)
      = acc.2.usageEvents.map (fun x => x.id) := by
  induction groups with
  | nil => intro acc; rfl
  | cons g rest ih =>
      intro acc
      obtain ⟨cid, evs⟩ := g
      unfold ingestGroups
      cases ingest cid (evs.map (toPolarEvent cid)) with
      | ok r => rw [ih]; exact markAll_ids evs acc.2 _ _ _ now
      | error msg => rw [ih]; exact markAll_ids evs acc.2 _ _ _ now

theorem batchIngestUsage_ids
    (ingest : String → List PolarUsageEvent → Except String IngestResp)
    (bs : Option Nat) (db : UsageDB) (nowMs : Nat) (now : String) :
    ((batchIngestUsage ingest bs db nowMs now).2).usageEvents.map (fun x => x.id)
      = db.usageEvents.map (fun x => x.id) := by
  unfold batchIngestUsage
  by_cases h0 : ((getUnprocessedEvents db (batchLimit bs)).length == 0) = true
  · rw [if_pos h0]
  · rw [if_neg h0]
    exact ingestGroups_ids ingest nowMs now _ ((0, 0), db)

theorem batchIngestUsage_preserve
    (ingest : String → List PolarUsageEvent → Except String IngestResp)
    (bs : Option Nat) (db : UsageDB) (nowMs : Nat) (now : String)
    (e : UsageEvent) (hmem : e ∈ db.usageEvents)
    (hnt : strTruthy e.polarCustomerId = false)
    (hnd : (db.usageEvents.map (fun x => x.id)).Nodup) :
    e ∈ ((batchIngestUsage ingest bs db nowMs now).2).usageEvents := by
  unfold batchIngestUsage
  by_cases h0 : ((getUnprocessedEvents db (batchLimit bs)).length == 0) = true
  · rw [if_pos h0]; exact hmem
  · rw [if_neg h0]
    refine ingestGroups_preserve ingest nowMs now
      (groupByCustomer (getUnprocessedEvents db (batchLimit bs)))
      ((0, 0), db) e hmem ?_
    intro g hg x hx hid
    have hxt := (groupByCustomer_mem _ g hg x hx).2
    have hxl := (groupByCustomer_mem _ g hg x hx).1
    have hxdb : x ∈ db.usageEvents := by
      unfold getUnprocessedEvents at hxl
      exact List.mem_of_mem_filter ((List.take_sublist _ _).subset hxl)
    have hx_eq : x = e := List.inj_on_of_nodup_map hnd hxdb hmem hid
    rw [hx_eq] at hxt
    rw [hxt] at hnt
    cases hnt

theorem groupFold_erase (e : UsageEvent)
    (hnt : strTruthy e.polarCustomerId = false) :
    ∀ (l : List UsageEvent) (gs : List (String × List UsageEvent)),
    (l.erase e).foldl
      (fun gs x =>
        if strTruthy x.polarCustomerId then
          addToGroups (x.polarCustomerId.getD "") x gs
        else gs) gs
    = l.foldl
      (fun gs x =>
        if strTruthy x.polarCustomerId then
          addToGroups (x.polarCustomerId.getD "") x gs
        else gs) gs := by
  intro l
  induction l with
  | nil => intro gs; rfl
  | cons x xs ih =>
      intro gs
      rw [List.erase_cons]
      by_cases hxe : (x == e) = true
      · rw [if_pos hxe, List.foldl_cons]
        have hx : x = e := eq_of_beq hxe
        simp [hx, hnt]
      · rw [if_neg hxe, List.foldl_cons, List.foldl_cons]
        exact ih _

theorem groupByCustomer_erase (l : List UsageEvent) (e : UsageEvent)
    (hnt : strTruthy e.polarCustomerId = false) :
    groupByCustomer (l.erase e) = groupByCustomer l :=
  groupFold_erase e hnt l []

theorem ingestGroups_marks
    (ingest : String → List PolarUsageEvent → Except String IngestResp)
    (nowMs : Nat) (now : String)
    (groups : List (String × List UsageEvent)) :
    ∀ (acc : (Nat × Nat) × UsageDB) (cid : String) (evs : List UsageEvent)
      (e : UsageEvent),
    (cid, evs) ∈ groups → e ∈ evs → e ∈ acc.2.usageEvents →
    (allIds groups).Nodup →
    (match ingest cid (evs.map (toPolarEvent cid)) with
     | .ok _ =>
        { e with processed := true, ingestedAt := some now,
                 polarEventId := some ("batch_" ++ toString nowMs) }
     | .error msg =>
        { e with processed := true, ingestedAt := some now,
                 error := some msg })
      ∈ (ingestGroups ingest nowMs now groups acc).2.usageEvents := by
  induction groups with
  | nil =>
      intro acc cid evs e hg
      cases hg
  | cons g rest ih =>
      intro acc cid evs e hg he hmem hnd
      obtain ⟨k, kevs⟩ := g
      have hnd2 : ((kevs.map (fun x => x.id)) ++ allIds rest).Nodup := by
        have : allIds ((k, kevs) :: rest) =
            kevs.map (fun x => x.id) ++ allIds rest := by
          simp [allIds]
        rw [← this]
        exact hnd
      rcases List.mem_cons.1 hg with heq | hgt
      · have hk : cid = k := congrArg Prod.fst heq
        have hevs : evs = kevs := congrArg Prod.snd heq
        subst hk
        subst hevs
        unfold ingestGroups
        cases hcall : ingest cid (evs.map (toPolarEvent cid)) with
        | ok r =>
            refine ingestGroups_preserve ingest nowMs now rest _ _
              (markAll_marks evs acc.2
                (some ("batch_" ++ toString nowMs)) true none now e hmem he
                (List.nodup_append.1 hnd2).1) ?_
            intro g' hg' x hx hid
            exact (List.nodup_append.1 hnd2).2.2
              (List.mem_map.2 ⟨e, he, rfl⟩)
              (hid ▸ mem_allIds rest g' x hg' hx)
        | error msg =>
            refine ingestGroups_preserve ingest nowMs now rest _ _
              (markAll_marks evs acc.2 none false (some msg) now e hmem he
                (List.nodup_append.1 hnd2).1) ?_
            intro g' hg' x hx hid
            exact (List.nodup_append.1 hnd2).2.2
              (List.mem_map.2 ⟨e, he, rfl⟩)
              (hid ▸ mem_allIds rest g' x hg' hx)
      · have heid : e.id ∈ allIds rest :=
          mem_allIds rest (cid, evs) e hgt he
        have hkne : ∀ x ∈ kevs, x.id ≠ e.id := by
          intro x hx hid
          exact (List.nodup_append.1 hnd2).2.2
            (List.mem_map.2 ⟨x, hx, rfl⟩) (hid ▸ heid)
        unfold ingestGroups
        cases hcall : ingest k (kevs.map (toPolarEvent k)) with
        | ok r =>
            exact ih _ cid evs e hgt he
              (markAll_preserve kevs acc.2 _ _ _ now e hmem hkne)
              (List.nodup_append.1 hnd2).2.1
        | error msg =>
            exact ih _ cid evs e hgt he
              (markAll_preserve kevs acc.2 _ _ _ now e hmem hkne)
              (List.nodup_append.1 hnd2).2.1

/-- C9: in the usage batch forwarder, when the metering call for a customer
group fails, every usage event of that group is marked with the error
message and with processed = true (so it is never retried automatically),
exactly as events of a successful group are marked processed = true (with
the batch id instead of an error). -/
theorem C9_failed_group_marking
    (ingest : String → List PolarUsageEvent → Except String IngestResp)
    (bs : Option Nat) (db : UsageDB) (nowMs : Nat) (now : String)
    (hnd : (db.usageEvents.map (fun x => x.id)).Nodup)
    (cid : String) (evs : List UsageEvent)
    (hg : (cid, evs) ∈ groupByCustomer (getUnprocessedEvents db (batchLimit bs)))
    (e : UsageEvent) (he : e ∈ evs) :
    (∀ msg, ingest cid (evs.map (toPolarEvent cid)) = .error msg →
      { e with processed := true, ingestedAt := some now, error := some msg }
        ∈ ((batchIngestUsage ingest bs db nowMs now).2).usageEvents) ∧
    (∀ r, ingest cid (evs.map (toPolarEvent cid)) = .ok r →
      { e with processed := true, ingestedAt := some now,
               polarEventId := some ("batch_" ++ toString nowMs) }
        ∈ ((batchIngestUsage ingest bs db nowMs now).2).usageEvents) := by
  have hemem : e ∈ getUnprocessedEvents db (batchLimit bs) :=
    (groupByCustomer_mem _ (cid, evs) hg e he).1
  have hedb : e ∈ db.usageEvents := by
    have h1 := hemem
    unfold getUnprocessedEvents at h1
    exact List.mem_of_mem_filter ((List.take_sublist _ _).subset h1)
  have hnz : ((getUnprocessedEvents db (batchLimit bs)).length == 0) = false := by
    cases hev : getUnprocessedEvents db (batchLimit bs) with
    | nil => rw [hev] at hemem; cases hemem
    | cons a as => rfl
  have hndall :
      (allIds (groupByCustomer (getUnprocessedEvents db (batchLimit bs)))).Nodup := by
    refine allIds_groupByCustomer_nodup _ (hnd.sublist (List.Sublist.map _ ?_))
    unfold getUnprocessedEvents
    exact (List.take_sublist _ _).trans (List.filter_sublist _)
  have hmain := ingestGroups_marks ingest nowMs now
    (groupByCustomer (getUnprocessedEvents db (batchLimit bs)))
    ((0, 0), db) cid evs e hg he hedb hndall
  constructor
  · intro msg hcall
    rw [hcall] at hmain
    unfold batchIngestUsage
    rw [if_neg (by rw [hnz]; exact Bool.false_ne_true)]
    exact hmain
  · intro r hcall
    rw [hcall] at hmain
    unfold batchIngestUsage
    rw [if_neg (by rw [hnz]; exact Bool.false_ne_true)]
    exact hmain

/-- Witness for C9 at a concrete store: a one-event group whose metering
call fails leaves the event processed with error "boom". -/
theorem C9_failed_group_marking_witness :
    { c9E1 with processed := true, ingestedAt := some "t1",
                error := some "boom" }
      ∈ ((batchIngestUsage (failIngest "boom") none c9DB 7 "t1").2).usageEvents :=
  (C9_failed_group_marking (failIngest "boom") none c9DB 7 "t1" (by decide)
    "cus_1" [c9E1] (by decide) c9E1 (by decide)).1 "boom" rfl

/-- C10: a pending usage event with no external (polar) customer id is
silently skipped by the batch forwarder: it is unprocessed, it belongs to
no customer group (so it is never sent to the processor), erasing it from
the fetched batch leaves the grouping — hence every send and both returned
totals — unchanged, and it remains in the unprocessed set after any number
of runs. -/
theorem C10_no_customer_id_skipped
    (ingest : String → List PolarUsageEvent → Except String IngestResp)
    (bs : Option Nat) (db : UsageDB) (nowMs : Nat) (now : String)
    (e : UsageEvent)
    (hmem : e ∈ getUnprocessedEvents db (batchLimit bs))
    (hnt : strTruthy e.polarCustomerId = false)
    (hnd : (db.usageEvents.map (fun x => x.id)).Nodup) :
    e.processed = false ∧
    (∀ g ∈ groupByCustomer (getUnprocessedEvents db (batchLimit bs)), e ∉ g.2) ∧
    groupByCustomer ((getUnprocessedEvents db (batchLimit bs)).erase e) =
      groupByCustomer (getUnprocessedEvents db (batchLimit bs)) ∧
    ∀ k : Nat,
      e ∈ (((fun d => (batchIngestUsage ingest bs d nowMs now).2)^[k] db)).usageEvents.filter
        (fun x => x.processed == false) := by
  have hefl : e ∈ db.usageEvents.filter (fun x => x.processed == false) := by
    have h1 := hmem
    unfold getUnprocessedEvents at h1
    exact (List.take_sublist _ _).subset h1
  have hedb : e ∈ db.usageEvents := List.mem_of_mem_filter hefl
  have heproc : (e.processed == false) = true := (List.mem_filter.1 hefl).2
  refine ⟨by simpa using heproc, ?_, groupByCustomer_erase _ e hnt, ?_⟩
  · intro g hg habs
    have h2 := (groupByCustomer_mem _ g hg e habs).2
    rw [h2] at hnt
    cases hnt
  · have hinv : ∀ k : Nat,
        e ∈ (((fun d => (batchIngestUsage ingest bs d nowMs now).2)^[k] db)).usageEvents ∧
        (((fun d => (batchIngestUsage ingest bs d nowMs now).2)^[k] db)).usageEvents.map
            (fun x => x.id)
          = db.usageEvents.map (fun x => x.id) := by
      intro k
      induction k with
      | zero => exact ⟨hedb, rfl⟩
      | succ m ih =>
          rw [Function.iterate_succ_apply']
          refine ⟨batchIngestUsage_preserve ingest bs _ nowMs now e ih.1 hnt ?_, ?_⟩
          · rw [ih.2]; exact hnd
          · rw [batchIngestUsage_ids, ih.2]
    intro k
    exact List.mem_filter.2 ⟨(hinv k).1, heproc⟩

/-- Witness for C10 at a concrete store: after two runs the event with no
customer id is still in the unprocessed set. -/
theorem C10_no_customer_id_skipped_witness :
    c10E ∈ (((fun d => (batchIngestUsage (failIngest "x") none d 7 "t1").2)^[2]
        c10DB)).usageEvents.filter (fun x => x.processed == false) :=
  (C10_no_customer_id_skipped (failIngest "x") none c10DB 7 "t1" c10E
    (by decide) (by decide) (by decide)).2.2.2 2

end Billing

